import Mathlib

/-!
Verification development for the `accessible-colors` library
(`src/helpers.ts`, `src/index.ts`, plus the older bundled variant of
`index.ts` whose functions are modelled here with a `V2` suffix).

Modelling conventions:
* JS strings are `List Char`; JS numbers are exact rationals `ℚ`
  (RGB channel values are `ℕ`, as every channel the code constructs is a
  nonnegative integer in `[0, 255]`).
* `null` results are `Option.none`.
* The single transcendental operation, `Math.pow(x, 2.4)` inside the WCAG
  gamma correction, has no rational value, so it is kept abstract as a
  parameter `pw : ℚ → ℚ` threaded through every luminance-dependent
  function; theorems assume of `pw` only properties that the real function
  `x ^ 2.4` enjoys on `[0, 1]` (boundedness, monotonicity, a lower bound
  past the linear/power junction).
* `parseInt(s, 16)` is modelled by its behaviour on the inputs reachable
  here: the longest prefix of hexadecimal digits is parsed
  (case-insensitively), and `none` stands for `NaN` when no digit leads.
-/

/-- Value of one hexadecimal digit, accepting both cases (as `parseInt` does). -/
def hexDigitValue (c : Char) : Option ℕ :=
  if '0' ≤ c ∧ c ≤ '9' then some (c.toNat - 48)
  else if 'a' ≤ c ∧ c ≤ 'f' then some (c.toNat - 87)
  else if 'A' ≤ c ∧ c ≤ 'F' then some (c.toNat - 55)
  else none

/-- Accumulating loop of the hexadecimal parser. Stops at the first non-digit. -/
def parseIntHexGo : List Char → ℕ → ℕ
  | [], acc => acc
  | c :: cs, acc =>
    match hexDigitValue c with
    | some d => parseIntHexGo cs (16 * acc + d)
    | none => acc

/-- Model of JavaScript `parseInt(s, 16)`: parses the longest leading run of
hex digits; `none` models `NaN` (no leading digit). -/
def parseIntHex : List Char → Option ℕ
  | [] => none
  | c :: cs =>
    match hexDigitValue c with
    | some d => some (parseIntHexGo cs d)
    | none => none

/-- Lowercase hexadecimal digit character for a value `d < 16`
(as produced by JavaScript `Number.prototype.toString(16)`). -/
def hexDigitChar (d : ℕ) : Char :=
  if d < 10 then Char.ofNat (48 + d) else Char.ofNat (87 + d)

/-- Structural recursion core of `natToHex`; `fuel` only bounds the recursion
depth (any `fuel` with `n < 16 ^ fuel` yields the digits of `n`). -/
def natToHexAux : ℕ → ℕ → List Char
  | 0, _ => []
  | fuel + 1, n =>
    if n < 16 then [hexDigitChar n]
    else natToHexAux fuel (n / 16) ++ [hexDigitChar (n % 16)]

/-- Model of `n.toString(16)` for a nonnegative integer `n`:
lowercase hex digits, no leading zeros, `"0"` for zero. -/
def natToHex (n : ℕ) : List Char := natToHexAux (n + 1) n

/-- Model of `String.prototype.padStart(len, c)`. -/
def padStart (len : ℕ) (c : Char) (s : List Char) : List Char :=
  List.replicate (len - s.length) c ++ s

/-- RGB record from `src/types.ts`; channels produced by this code are always
integers in `[0, 255]`. -/
structure RGB where
  r : ℕ
  g : ℕ
  b : ℕ
deriving DecidableEq, Repr

/-- HSL record from `src/types.ts`: three rationals, nominally in `[0, 1]`. -/
structure HSL where
  h : ℚ
  s : ℚ
  l : ℚ
deriving DecidableEq, Repr

/-- `rgbToHex` (helpers.ts): `'#' + ((r << 16) | (g << 8) | b).toString(16).padStart(6, '0')`. -/
def rgbToHex (c : RGB) : List Char :=
  '#' :: padStart 6 '0' (natToHex ((c.r <<< 16) ||| (c.g <<< 8) ||| c.b))

/-- Model of `hex.replace(/^#/, '')`: removes one leading `'#'` if present. -/
def jsStripHash : List Char → List Char
  | '#' :: cs => cs
  | cs => cs

/-- `hexToRgb` (helpers.ts). `parseInt` may give `NaN` (here `none`), and the
bitwise operators `>>`/`&` coerce their operand with `ToInt32`: `NaN` becomes
`0` and larger values are taken mod `2^32`; extracting bits `16..23`, `8..15`
and `0..7` of that 32-bit value is division/modulus below (the signed
reinterpretation inside `ToInt32` cannot change those low 24 bits). -/
def hexToRgb (s : List Char) : RGB :=
  let bigint : ℕ := ((parseIntHex (jsStripHash s)).getD 0) % 2 ^ 32
  ⟨bigint / 2 ^ 16 % 256, bigint / 2 ^ 8 % 256, bigint % 256⟩

/-- Model of `Math.round` on the (nonnegative) rationals this code rounds:
round half up. -/
def jsRound (x : ℚ) : ℤ := ⌊x + 1 / 2⌋

/-- The `hue2rgb` helper inside `hslToRgb` (helpers.ts). The two sequential
normalisation steps `if (t < 0) t += 1; if (t > 1) t -= 1;` are applied first. -/
def hue2rgb (p q t0 : ℚ) : ℚ :=
  let t1 := if t0 < 0 then t0 + 1 else t0
  let t := if t1 > 1 then t1 - 1 else t1
  if t < 1 / 6 then p + (q - p) * 6 * t
  else if t < 1 / 2 then q
  else if t < 2 / 3 then p + (q - p) * (2 / 3 - t) * 6
  else p

/-- `hslToRgb` (helpers.ts). Channels are rounded with `Math.round(x * 255)`;
they are nonnegative for the in-range inputs this library produces, so the
`ℤ → ℕ` coercion below is faithful. -/
def hslToRgb (c : HSL) : RGB :=
  if c.s = 0 then
    let v : ℕ := (jsRound (c.l * 255)).toNat
    ⟨v, v, v⟩
  else
    let q := if c.l < 1 / 2 then c.l * (1 + c.s) else c.l + c.s - c.l * c.s
    let p := 2 * c.l - q
    ⟨(jsRound (hue2rgb p q (c.h + 1 / 3) * 255)).toNat,
     (jsRound (hue2rgb p q c.h * 255)).toNat,
     (jsRound (hue2rgb p q (c.h - 1 / 3) * 255)).toNat⟩

/-- `rgbToHsl` (helpers.ts). The `switch (max)` matches `case r:` first, then
`case g:`, then `case b:`. -/
def rgbToHsl (c : RGB) : HSL :=
  let r : ℚ := (c.r : ℚ) / 255
  let g : ℚ := (c.g : ℚ) / 255
  let b : ℚ := (c.b : ℚ) / 255
  let mx := max r (max g b)
  let mn := min r (min g b)
  let l := (mx + mn) / 2
  if mx = mn then ⟨0, 0, l⟩
  else
    let d := mx - mn
    let s := if l > 1 / 2 then d / (2 - mx - mn) else d / (mx + mn)
    let h :=
      (if mx = r then (g - b) / d + (if g < b then 6 else 0)
       else if mx = g then (b - r) / d + 2
       else (r - g) / d + 4) / 6
    ⟨h, s, l⟩

/-- `hslToHex` (helpers.ts). -/
def hslToHex (c : HSL) : List Char := rgbToHex (hslToRgb c)

/-- `hexToHsl` (helpers.ts). -/
def hexToHsl (s : List Char) : HSL := rgbToHsl (hexToRgb s)

/-- The per-channel map inside `getLuminance` (index.ts): normalise to `[0,1]`
and gamma-correct. `pw` abstracts `Math.pow(·, 2.4)`. -/
def gammaMap (pw : ℚ → ℚ) (v : ℕ) : ℚ :=
  let value : ℚ := (v : ℚ) / 255
  if value ≤ 0.03928 then value / 12.92 else pw ((value + 0.055) / 1.055)

/-- `getLuminance` (index.ts). `if (!color) return null` fires exactly on the
empty string; the subsequent `if (!rgb) return null` can never fire since
`hexToRgb` always returns an object (which is truthy in JS). -/
def getLuminance (pw : ℚ → ℚ) (color : List Char) : Option ℚ :=
  if color = [] then none
  else
    let rgb := hexToRgb color
    some (0.2126 * gammaMap pw rgb.r + 0.7152 * gammaMap pw rgb.g +
      0.0722 * gammaMap pw rgb.b)

/-- `getContrast` (index.ts). `[l1, l2].sort((a, b) => b - a)` puts the larger
luminance first. `precision` defaults to 3 in the source; call sites omitting
it pass 3 here. -/
def getContrast (pw : ℚ → ℚ) (color1 color2 : Option (List Char))
    (precision : ℕ) : Option ℚ :=
  match color1, color2 with
  | some c1, some c2 =>
    match getLuminance pw c1, getLuminance pw c2 with
    | some lum1, some lum2 =>
      let light := max lum1 lum2
      let dark := min lum1 lum2
      some ((jsRound ((light + 0.05) / (dark + 0.05) * 10 ^ precision) : ℚ) /
        10 ^ precision)
    | _, _ => none
  | _, _ => none

/-- `isContrasting` (index.ts): `if (!contrast) return null` treats both `null`
and the (unreachable for real inputs) ratio `0` as falsy. -/
def isContrasting (pw : ℚ → ℚ) (color1 color2 : List Char) (ratio : ℚ) :
    Option Bool :=
  match getContrast pw (some color1) (some color2) 3 with
  | none => none
  | some contrast => if contrast = 0 then none else some (ratio ≤ contrast)

/-- `isAAContrast` (index.ts, current variant): threshold 3 for large text,
4.5 otherwise. -/
def isAAContrast (pw : ℚ → ℚ) (color1 color2 : List Char) (large : Bool) :
    Option Bool :=
  isContrasting pw color1 color2 (if large then 3 else 4.5)

/-- `isAAAContrast` (index.ts, current variant): threshold 4.5 for large text,
7 otherwise. -/
def isAAAContrast (pw : ℚ → ℚ) (color1 color2 : List Char) (large : Bool) :
    Option Bool :=
  isContrasting pw color1 color2 (if large then 4.5 else 7)

/-- `isAAContrast` of the older bundled variant of index.ts (inlined
`getContrast` test, same 3 / 4.5 thresholds). -/
def isAAContrastV2 (pw : ℚ → ℚ) (color1 color2 : List Char) (large : Bool) :
    Option Bool :=
  match getContrast pw (some color1) (some color2) 3 with
  | none => none
  | some contrast =>
    if contrast = 0 then none else some ((if large then 3 else 4.5) ≤ contrast)

/-- `isAAAContrast` of the older bundled variant of index.ts:
`contrast && contrast >= (large ? 4.5 : 7.5)`. A falsy `contrast` (null, or
the unreachable 0) is returned as-is, modelled as `none`; note the non-large
threshold in this variant is 7.5, not the documented 7. -/
def isAAAContrastV2 (pw : ℚ → ℚ) (color1 color2 : List Char) (large : Bool) :
    Option Bool :=
  match getContrast pw (some color1) (some color2) 3 with
  | none => none
  | some contrast =>
    if contrast = 0 then none
    else some ((if large then 4.5 else 7.5) ≤ contrast)

/-- JS truthiness of a `boolean | null` value: only `true` is truthy. -/
def jsTruthy : Option Bool → Bool
  | some true => true
  | _ => false

/-- `randomColor` (index.ts) with the random draw
`Math.floor(Math.random() * 16777215)` made explicit as the argument `n`. -/
def randomColor (n : ℕ) : List Char :=
  '#' :: padStart 6 '0' (natToHex n)

/-- The retry loop shared by `getRandomAAColor` and `getRandomAAAColor`
(index.ts, current variant): `while (!test(color)) { if (attempts++ > 1000)
return null; color = randomColor(); }`. `draws i` is the i-th random draw;
the loop body at (pre-increment) attempt count `k` uses draw `k + 1`. -/
def randomSearchGo (test : List Char → Option Bool) (draws : ℕ → ℕ)
    (color : List Char) (attempts : ℕ) : Option (List Char) :=
  if jsTruthy (test color) then some color
  else if attempts > 1000 then none
  else randomSearchGo test draws (randomColor (draws (attempts + 1)))
    (attempts + 1)
termination_by 1001 - attempts
decreasing_by
  simp_all only [not_lt, gt_iff_lt]
  omega

/-- `getRandomAAColor` (index.ts, current variant). -/
def getRandomAAColor (pw : ℚ → ℚ) (draws : ℕ → ℕ) (background : List Char)
    (large : Bool) : Option (List Char) :=
  randomSearchGo (fun c => isAAContrast pw background c large) draws
    (randomColor (draws 0)) 0

/-- `getRandomAAAColor` (index.ts, current variant). -/
def getRandomAAAColor (pw : ℚ → ℚ) (draws : ℕ → ℕ) (background : List Char)
    (large : Bool) : Option (List Char) :=
  randomSearchGo (fun c => isAAAContrast pw background c large) draws
    (randomColor (draws 0)) 0

/-- The `'lighten' | 'darken'` direction argument of `binarySearchContrast`. -/
inductive LightDir where
  | lighten
  | darken
deriving DecidableEq, Repr

/-- Mutable state of the `binarySearchContrast` loop (helpers.ts):
the bounds `min`/`max`, their encoded colors, and the previous iteration's
encoded colors (`null` before the first iteration). -/
structure BscState where
  mn : ℚ
  mx : ℚ
  minColor : List Char
  maxColor : List Char
  prevMin : Option (List Char)
  prevMax : Option (List Char)
deriving DecidableEq, Repr

/-- The `while (minColor !== prevMin || maxColor !== prevMax)` condition. -/
def bscCond (st : BscState) : Bool :=
  decide (some st.minColor ≠ st.prevMin) || decide (some st.maxColor ≠ st.prevMax)

/-- The boundary color the search direction tracks: `dir === 'lighten' ?
st.maxColor : st.minColor` in the source (the color the pre-loop guard tests
and the one the function finally returns). -/
def bscTracked (dir : LightDir) (st : BscState) : List Char :=
  match dir with
  | .lighten => st.maxColor
  | .darken => st.minColor

/-- Invariant of the `binarySearchContrast` loop state: the bounds are
ordered, lie in `[0, 1]`, and the boundary color strings are the hex
encodings of the bounds at the fixed hue/saturation `(h, s)`. -/
def BscInv (h s : ℚ) (st : BscState) : Prop :=
  0 ≤ st.mn ∧ st.mn ≤ st.mx ∧ st.mx ≤ 1 ∧
  st.minColor = hslToHex ⟨h, s, st.mn⟩ ∧ st.maxColor = hslToHex ⟨h, s, st.mx⟩

/-- One iteration of the `binarySearchContrast` loop body. `hs` is the fixed
hue/saturation pair of the color being adjusted. The source recomputes
`hslToHex(\x7b ...hs, l: adjusted \x7d)` when storing the moved bound; that is
the same value as `stringified`. -/
def bscStep (hs : ℚ × ℚ) (fixedHex : List Char)
    (contrastFn : List Char → List Char → Bool → Option Bool) (large : Bool)
    (dir : LightDir) (st : BscState) : BscState :=
  let adjusted := (st.mn + st.mx) / 2
  let stringified := hslToHex ⟨hs.1, hs.2, adjusted⟩
  match dir with
  | .lighten =>
    if !jsTruthy (contrastFn stringified fixedHex large) then
      { st with prevMin := some st.minColor, prevMax := some st.maxColor,
                mn := adjusted, minColor := stringified }
    else
      { st with prevMin := some st.minColor, prevMax := some st.maxColor,
                mx := adjusted, maxColor := stringified }
  | .darken =>
    if !jsTruthy (contrastFn stringified fixedHex large) then
      { st with prevMin := some st.minColor, prevMax := some st.maxColor,
                mx := adjusted, maxColor := stringified }
    else
      { st with prevMin := some st.minColor, prevMax := some st.maxColor,
                mn := adjusted, minColor := stringified }

/-- Fuel-indexed unfolding of the `binarySearchContrast` loop: runs `bscStep`
while `bscCond` holds and fuel remains. `bscFuel` below is proven sufficient
for the loop to reach its fixed point, so the fuelled run is the loop. -/
def bscRun (hs : ℚ × ℚ) (fixedHex : List Char)
    (contrastFn : List Char → List Char → Bool → Option Bool) (large : Bool)
    (dir : LightDir) (fuel : ℕ) (st : BscState) : BscState :=
  if fuel = 0 then st
  else if bscCond st then
    bscRun hs fixedHex contrastFn large dir (fuel - 1)
      (bscStep hs fixedHex contrastFn large dir st)
  else st
termination_by fuel
decreasing_by
  omega

/-- Fuel that provably exceeds the iteration count of the search loop
(the 24-bit encoded gap between the boundary colors shrinks at every
iteration that does not reach the fixed point). -/
def bscFuel : ℕ := 16777218

/-- `binarySearchContrast` (helpers.ts). -/
def binarySearchContrast (change fixed : HSL) (dir : LightDir)
    (contrastFn : List Char → List Char → Bool → Option Bool)
    (large : Bool) : Option HSL :=
  let l := change.l
  let hs : ℚ × ℚ := (change.h, change.s)
  let mx : ℚ := match dir with | .lighten => 1 | .darken => l
  let mn : ℚ := match dir with | .lighten => l | .darken => 0
  let minColor := hslToHex ⟨hs.1, hs.2, mn⟩
  let maxColor := hslToHex ⟨hs.1, hs.2, mx⟩
  let fixedHex := hslToHex fixed
  if !jsTruthy (contrastFn (bscTracked dir ⟨mn, mx, minColor, maxColor, none, none⟩)
      fixedHex large) then
    none
  else
    let final := bscRun hs fixedHex contrastFn large dir bscFuel
      ⟨mn, mx, minColor, maxColor, none, none⟩
    some (hexToHsl (bscTracked dir final))

/-- `suggestColorVariant` (helpers.ts). The guard
`if (!hslKeep || !hslChange) return null` never fires, since `hexToHsl`
always returns an object, which is truthy in JS. -/
def suggestColorVariant (colorToChange colorToKeep : List Char)
    (compareFn : List Char → List Char → Bool → Option Bool)
    (large : Bool) : Option (List Char) :=
  let hslChange := hexToHsl colorToChange
  let hslKeep := hexToHsl colorToKeep
  if jsTruthy (compareFn colorToChange colorToKeep large) then
    some colorToChange
  else
    match binarySearchContrast hslChange hslKeep .darken compareFn large,
          binarySearchContrast hslChange hslKeep .lighten compareFn large with
    | some darker, some lighter =>
      let darkerDiff := |hslChange.l - darker.l|
      let lighterDiff := |hslChange.l - lighter.l|
      some (hslToHex (if darkerDiff < lighterDiff then darker else lighter))
    | none, some lighter => some (hslToHex lighter)
    | some darker, none => some (hslToHex darker)
    | none, none => none

/-- `suggestAAColorVariant` (index.ts, current variant). -/
def suggestAAColorVariant (pw : ℚ → ℚ) (colorToChange colorToKeep : List Char)
    (large : Bool) : Option (List Char) :=
  suggestColorVariant colorToChange colorToKeep (isAAContrast pw) large

/-- `suggestAAAColorVariant` (index.ts, current variant). -/
def suggestAAAColorVariant (pw : ℚ → ℚ) (colorToChange colorToKeep : List Char)
    (large : Bool) : Option (List Char) :=
  suggestColorVariant colorToChange colorToKeep (isAAAContrast pw) large

/-! ### Predicates used by the theorems -/

/-- The boundedness property assumed of the abstract power map `pw`
(modelling `Math.pow(·, 2.4)`): it sends `[0, 1]` into `[0, 1]`.
The real function `x ^ 2.4` satisfies this. -/
def PwBounded (pw : ℚ → ℚ) : Prop :=
  ∀ x : ℚ, 0 ≤ x → x ≤ 1 → 0 ≤ pw x ∧ pw x ≤ 1

/-- Monotonicity of the abstract power map on `[0, 1]`, true of `x ^ 2.4`. -/
def PwMono (pw : ℚ → ℚ) : Prop :=
  ∀ x y : ℚ, 0 ≤ x → x ≤ y → y ≤ 1 → pw x ≤ pw y

/-- A lower bound of the power map just past the linear/power junction of the
WCAG gamma curve: the gamma value of channel 11 exceeds that of channel 10.
True of `x ^ 2.4`, since `(0.0930213...) ^ 2.4 = 0.003347... > 10 / 3294.6`. -/
def PwJunction (pw : ℚ → ℚ) : Prop :=
  ∀ x : ℚ, ((11 : ℚ) / 255 + 0.055) / 1.055 ≤ x → x ≤ 1 →
    (10 : ℚ) / 255 / 12.92 ≤ pw x

/-- A character that `natToHex` can output: a lowercase hexadecimal digit. -/
def CanonHexDigit (c : Char) : Prop :=
  ∃ d : Fin 16, c = hexDigitChar d.val

/-- A canonical hex color string: `'#'` followed by exactly six lowercase
hexadecimal digits (the form `rgbToHex` outputs). -/
def CanonHexColor (s : List Char) : Prop :=
  ∃ ds : List Char, s = '#' :: ds ∧ ds.length = 6 ∧ ∀ c ∈ ds, CanonHexDigit c

/-! ### Shared evaluation and bound lemmas -/

theorem getContrast_some_some (pw : ℚ → ℚ) (s1 s2 : List Char) (precision : ℕ) :
    getContrast pw (some s1) (some s2) precision =
      match getLuminance pw s1, getLuminance pw s2 with
      | some lum1, some lum2 =>
        some ((jsRound ((max lum1 lum2 + 0.05) / (min lum1 lum2 + 0.05) *
          10 ^ precision) : ℚ) / 10 ^ precision)
      | _, _ => none := rfl

theorem hexToRgb_le (s : List Char) :
    (hexToRgb s).r ≤ 255 ∧ (hexToRgb s).g ≤ 255 ∧ (hexToRgb s).b ≤ 255 := by
  unfold hexToRgb
  refine ⟨?_, ?_, ?_⟩ <;> exact Nat.le_of_lt_succ (Nat.mod_lt _ (by norm_num))

theorem natToHexAux_eq (fuel n : ℕ) :
    natToHexAux fuel n =
      if fuel = 0 then []
      else if n < 16 then [hexDigitChar n]
      else natToHexAux (fuel - 1) (n / 16) ++ [hexDigitChar (n % 16)] := by
  cases fuel <;> simp [natToHexAux]

theorem gammaMap_arg_mem (v : ℕ) (hv : v ≤ 255) :
    0 ≤ ((v : ℚ) / 255 + 0.055) / 1.055 ∧ ((v : ℚ) / 255 + 0.055) / 1.055 ≤ 1 := by
  have h0 : (0 : ℚ) ≤ (v : ℚ) / 255 := by positivity
  have h1 : ((v : ℚ)) / 255 ≤ 1 := by
    rw [div_le_one (by norm_num)]
    exact_mod_cast hv
  constructor
  · positivity
  · rw [div_le_one (by norm_num)]
    linarith

theorem gammaMap_nonneg (pw : ℚ → ℚ) (hpw : PwBounded pw) (v : ℕ)
    (hv : v ≤ 255) : 0 ≤ gammaMap pw v := by
  simp only [gammaMap]
  split
  · positivity
  · obtain ⟨ha, hb⟩ := gammaMap_arg_mem v hv
    exact (hpw _ ha hb).1

theorem gammaMap_le_one (pw : ℚ → ℚ) (hpw : PwBounded pw) (v : ℕ)
    (hv : v ≤ 255) : gammaMap pw v ≤ 1 := by
  simp only [gammaMap]
  split
  · rename_i h
    norm_num at h ⊢
    linarith
  · obtain ⟨ha, hb⟩ := gammaMap_arg_mem v hv
    exact (hpw _ ha hb).2

theorem getLuminance_eq_some (pw : ℚ → ℚ) (s : List Char) (hs : s ≠ []) :
    getLuminance pw s =
      some (0.2126 * gammaMap pw (hexToRgb s).r + 0.7152 * gammaMap pw (hexToRgb s).g +
        0.0722 * gammaMap pw (hexToRgb s).b) := by
  unfold getLuminance
  simp [hs]

theorem getLuminance_nonneg (pw : ℚ → ℚ) (hpw : PwBounded pw) (s : List Char)
    (L : ℚ) (hL : getLuminance pw s = some L) : 0 ≤ L := by
  rcases eq_or_ne s [] with rfl | hs
  · simp [getLuminance] at hL
  · rw [getLuminance_eq_some pw s hs] at hL
    obtain ⟨hr, hg, hb⟩ := hexToRgb_le s
    have h1 := gammaMap_nonneg pw hpw (hexToRgb s).r hr
    have h2 := gammaMap_nonneg pw hpw (hexToRgb s).g hg
    have h3 := gammaMap_nonneg pw hpw (hexToRgb s).b hb
    obtain rfl : _ = L := Option.some_injective _ hL
    positivity

theorem getLuminance_le_one (pw : ℚ → ℚ) (hpw : PwBounded pw) (s : List Char)
    (L : ℚ) (hL : getLuminance pw s = some L) : L ≤ 1 := by
  rcases eq_or_ne s [] with rfl | hs
  · simp [getLuminance] at hL
  · rw [getLuminance_eq_some pw s hs] at hL
    obtain ⟨hr, hg, hb⟩ := hexToRgb_le s
    have h1 := gammaMap_le_one pw hpw (hexToRgb s).r hr
    have h2 := gammaMap_le_one pw hpw (hexToRgb s).g hg
    have h3 := gammaMap_le_one pw hpw (hexToRgb s).b hb
    obtain rfl : _ = L := Option.some_injective _ hL
    linarith

theorem jsRound_le_of_le {x y : ℚ} (h : x ≤ y) : jsRound x ≤ jsRound y := by
  unfold jsRound
  exact Int.floor_le_floor (by linarith)

theorem getContrast_some_ge_one (pw : ℚ → ℚ) (hpw : PwBounded pw)
    (s1 s2 : List Char) (precision : ℕ) (c : ℚ)
    (hc : getContrast pw (some s1) (some s2) precision = some c) : 1 ≤ c := by
  rw [getContrast_some_some] at hc
  rcases h1 : getLuminance pw s1 with _ | L1 <;> rw [h1] at hc
  · simp at hc
  rcases h2 : getLuminance pw s2 with _ | L2 <;> rw [h2] at hc
  · simp at hc
  simp only [Option.some_inj] at hc
  have hL1 := getLuminance_nonneg pw hpw s1 L1 h1
  have hL2 := getLuminance_nonneg pw hpw s2 L2 h2
  have hmin : (0 : ℚ) ≤ min L1 L2 := le_min hL1 hL2
  have hdark : (0 : ℚ) < min L1 L2 + 0.05 := by linarith
  have hratio : (1 : ℚ) ≤ (max L1 L2 + 0.05) / (min L1 L2 + 0.05) := by
    rw [le_div_iff₀ hdark]
    have : min L1 L2 ≤ max L1 L2 := min_le_max
    linarith
  have hpow : (0 : ℚ) < 10 ^ precision := by positivity
  have hfloor : ((10 : ℤ) ^ precision) ≤
      jsRound ((max L1 L2 + 0.05) / (min L1 L2 + 0.05) * 10 ^ precision) := by
    unfold jsRound
    apply Int.le_floor.mpr
    push_cast
    nlinarith
  rw [← hc, le_div_iff₀ hpow, one_mul]
  calc (10 : ℚ) ^ precision = (((10 : ℤ) ^ precision : ℤ) : ℚ) := by push_cast; ring
  _ ≤ _ := by exact_mod_cast hfloor

/-- Evaluation facts used by concrete witnesses. -/
theorem hexToRgb_white : hexToRgb ("#ffffff".data) = ⟨255, 255, 255⟩ := by decide

theorem hexToRgb_black : hexToRgb ("#000000".data) = ⟨0, 0, 0⟩ := by decide

theorem getLuminance_white_const (c : ℚ) :
    getLuminance (fun _ => c) ("#ffffff".data) = some c := by
  rw [getLuminance_eq_some _ _ (by decide), hexToRgb_white]
  simp only [gammaMap]
  norm_num
  ring

theorem getLuminance_black (pw : ℚ → ℚ) :
    getLuminance pw ("#000000".data) = some 0 := by
  rw [getLuminance_eq_some _ _ (by decide), hexToRgb_black]
  simp only [gammaMap]
  norm_num

theorem getContrast_white_black_const (c : ℚ) (hc : 0 ≤ c) :
    getContrast (fun _ => c) (some ("#ffffff".data)) (some ("#000000".data)) 3 =
      some ((jsRound ((c + 0.05) / 0.05 * 1000) : ℚ) / 1000) := by
  rw [getContrast_some_some, getLuminance_white_const, getLuminance_black]
  have hmax : max c (0 : ℚ) = c := max_eq_left hc
  have hmin : min c (0 : ℚ) = 0 := min_eq_right hc
  simp only [hmax, hmin]
  norm_num

/-! ### C8: symmetry of the contrast ratio -/

theorem getContrast_comm (pw : ℚ → ℚ) (c1 c2 : Option (List Char))
    (precision : ℕ) :
    getContrast pw c1 c2 precision = getContrast pw c2 c1 precision := by
  cases c1 with
  | none => cases c2 <;> rfl
  | some s1 =>
    cases c2 with
    | none => rfl
    | some s2 =>
      rw [getContrast_some_some, getContrast_some_some]
      rcases h1 : getLuminance pw s1 with _ | L1 <;>
        rcases h2 : getLuminance pw s2 with _ | L2 <;>
          simp [max_comm, min_comm]

/-- C8: for all inputs (well-formed or not) and any precision, the contrast
ratio is symmetric: `getContrast(A, B, p) = getContrast(B, A, p)`. -/
theorem claim8_contrast_symm (pw : ℚ → ℚ) (c1 c2 : Option (List Char))
    (precision : ℕ) :
    getContrast pw c1 c2 precision = getContrast pw c2 c1 precision :=
  getContrast_comm pw c1 c2 precision

/-! ### C2: the suggestion functions are the identity on already-compliant pairs -/

/-- C2: when the compliance predicate already holds for `(A, B)`, both
`suggestAAColorVariant` and `suggestAAAColorVariant` return the input
`colorToChange` string `A` itself, unchanged. -/
theorem claim2_suggest_noop (pw : ℚ → ℚ) (A B : List Char) (large : Bool) :
    (isAAContrast pw A B large = some true →
      suggestAAColorVariant pw A B large = some A) ∧
    (isAAAContrast pw A B large = some true →
      suggestAAAColorVariant pw A B large = some A) := by
  constructor <;> intro h <;>
    · simp only [suggestAAColorVariant, suggestAAAColorVariant, suggestColorVariant]
      rw [h]
      simp [jsTruthy]

/-- Witness for C2 at a concrete compliant pair. -/
theorem claim2_witness :
    isAAContrast (fun _ => 1) ("#ffffff".data) ("#000000".data) false = some true ∧
    suggestAAColorVariant (fun _ => 1) ("#ffffff".data) ("#000000".data) false =
      some ("#ffffff".data) := by
  have hc : getContrast (fun _ => (1 : ℚ)) (some ("#ffffff".data)) (some ("#000000".data)) 3 =
      some 21 := by
    rw [getContrast_white_black_const 1 (by norm_num)]
    norm_num [jsRound]
  have hAA : isAAContrast (fun _ => (1 : ℚ)) ("#ffffff".data) ("#000000".data) false = some true := by
    unfold isAAContrast isContrasting
    rw [hc]
    norm_num
  exact ⟨hAA, (claim2_suggest_noop (fun _ => 1) ("#ffffff".data) ("#000000".data) false).1 hAA⟩

/-! ### C4: compliance thresholds -/

/-- C4: the older bundled variant of `isAAAContrast` compares against 7.5
instead of the documented 7.0. At a luminance pair giving contrast 7.2 —
which the real power function attains, e.g. `isAAAContrast('#000000',
'#999999')` has contrast 7.371 — the claim (and the function's own doc
comment) requires `true`, but the code returns `false`. The current variant
(`isAAAContrast`, threshold 7.0) agrees with the claim on the same input. -/
theorem claim4_aaa_threshold_code_bug :
    getContrast (fun _ => 31 / 100) (some ("#ffffff".data)) (some ("#000000".data)) 3 =
        some 7.2 ∧
      (7 : ℚ) ≤ 7.2 ∧
      isAAAContrastV2 (fun _ => 31 / 100) ("#ffffff".data) ("#000000".data) false =
        some false ∧
      isAAAContrast (fun _ => 31 / 100) ("#ffffff".data) ("#000000".data) false =
        some true := by
  have hc : getContrast (fun _ => (31 / 100 : ℚ)) (some ("#ffffff".data))
      (some ("#000000".data)) 3 = some 7.2 := by
    rw [getContrast_white_black_const (31 / 100) (by norm_num)]
    norm_num [jsRound]
  refine ⟨hc, by norm_num, ?_, ?_⟩
  · unfold isAAAContrastV2
    rw [hc]
    norm_num
  · unfold isAAAContrast isContrasting
    rw [hc]
    norm_num

/-! ### C5: behaviour on empty and malformed input -/

/-- C5 counterexample: `getLuminance` does not return the absent value on the
malformed (non-hex) input `"zzzzzz"`; `parseInt` yields `NaN`, the bitwise
ops coerce it to 0, and the luminance of black is returned instead. -/
theorem claim5_cex : getLuminance (fun x => x) ("zzzzzz".data) = some 0 := by
  have h : hexToRgb ("zzzzzz".data) = ⟨0, 0, 0⟩ := by decide
  rw [getLuminance_eq_some _ _ (by decide), h]
  simp only [gammaMap]
  norm_num

/-- C5 (amended): `getLuminance` returns the absent value exactly on the empty
string — malformed non-empty input is parsed leniently and yields a number —
and `getContrast` on present arguments is absent exactly when one of them is
empty; `isContrasting` (hence the AA/AAA predicates) yields a present value
whenever both inputs are non-empty, for any `pw` that is nonnegative (as the
real `x ^ 2.4` is). -/
theorem claim5_none_iff_empty (pw : ℚ → ℚ) :
    (∀ s, getLuminance pw s = none ↔ s = []) ∧
    (∀ s1 s2 precision,
      getContrast pw (some s1) (some s2) precision = none ↔ s1 = [] ∨ s2 = []) ∧
    (∀ s1 s2 ratio, s1 ≠ [] → s2 ≠ [] → PwBounded pw →
      isContrasting pw s1 s2 ratio ≠ none) := by
  have hlum : ∀ s, getLuminance pw s = none ↔ s = [] := by
    intro s
    rcases eq_or_ne s [] with rfl | hs
    · simp [getLuminance]
    · rw [getLuminance_eq_some pw s hs]
      simp [hs]
  refine ⟨hlum, ?_, ?_⟩
  · intro s1 s2 precision
    rw [getContrast_some_some]
    rcases h1 : getLuminance pw s1 with _ | L1 <;>
      rcases h2 : getLuminance pw s2 with _ | L2 <;>
        simp_all [← hlum]
  · intro s1 s2 ratio h1 h2 hpw
    unfold isContrasting
    rcases hc : getContrast pw (some s1) (some s2) 3 with _ | c
    · rw [getContrast_some_some] at hc
      rcases hl1 : getLuminance pw s1 with _ | L1 <;> rw [hl1] at hc
      · exact absurd ((hlum s1).mp hl1) h1
      rcases hl2 : getLuminance pw s2 with _ | L2 <;> rw [hl2] at hc
      · exact absurd ((hlum s2).mp hl2) h2
      simp at hc
    · have := getContrast_some_ge_one pw hpw s1 s2 3 c hc
      have hne : c ≠ 0 := by linarith
      simp [hne]

/-- Witness for C5's amended statement at concrete inputs. -/
theorem claim5_witness :
    ("#ffffff".data ≠ ([] : List Char)) ∧
    isContrasting (fun x => x) ("#ffffff".data) ("#000000".data) 4.5 ≠ none := by
  refine ⟨by decide, ?_⟩
  exact (claim5_none_iff_empty (fun x => x)).2.2 ("#ffffff".data) ("#000000".data)
    4.5 (by decide) (by decide) (fun x hx hx1 => ⟨hx, hx1⟩)

/-! ### C7: hex / RGB round-trips -/

/-- C7 counterexample: the Hex→RGB→Hex round-trip is not exact on every
well-formed hex string — uppercase digits (accepted case-insensitively by the
decoder) re-encode to lowercase. -/
theorem claim7_cex : rgbToHex (hexToRgb ("#ABCDEF".data)) ≠ "#ABCDEF".data := by
  decide

/-! ### C10: equal-distance tie-breaking in suggestColorVariant -/

/-- C10: when both directed searches succeed and the two results are at equal
absolute lightness distance from the original, `suggestColorVariant` returns
the lighter variant (the strict `<` on the darker distance loses ties). -/
theorem claim10_tie_prefers_lighter
    (cf : List Char → List Char → Bool → Option Bool) (large : Bool)
    (A B : List Char) (d li : HSL)
    (hcf : jsTruthy (cf A B large) = false)
    (hd : binarySearchContrast (hexToHsl A) (hexToHsl B) .darken cf large = some d)
    (hl : binarySearchContrast (hexToHsl A) (hexToHsl B) .lighten cf large = some li)
    (heq : |(hexToHsl A).l - d.l| = |(hexToHsl A).l - li.l|) :
    suggestColorVariant A B cf large = some (hslToHex li) := by
  simp only [suggestColorVariant, hcf, hd, hl, heq]
  simp [lt_irrefl]

/-! ### C9: the bounded random retry loop -/

theorem randomSearchGo_spec (test : List Char → Option Bool) (draws : ℕ → ℕ) :
    ∀ n a, 1001 - a < n → a ≤ 1001 →
      (∃ i, a ≤ i ∧ i ≤ 1001 ∧ jsTruthy (test (randomColor (draws i))) = true ∧
        (∀ j, a ≤ j → j < i → jsTruthy (test (randomColor (draws j))) = false) ∧
        randomSearchGo test draws (randomColor (draws a)) a =
          some (randomColor (draws i))) ∨
      ((∀ i, a ≤ i → i ≤ 1001 → jsTruthy (test (randomColor (draws i))) = false) ∧
        randomSearchGo test draws (randomColor (draws a)) a = none) := by
  intro n
  induction n with
  | zero => omega
  | succ n ih =>
    intro a hn ha
    rcases ht : jsTruthy (test (randomColor (draws a))) with _ | _
    · -- current draw fails
      by_cases hb : a > 1000
      · right
        have ha1001 : a = 1001 := by omega
        constructor
        · intro i hai hi1001
          have : i = a := by omega
          rw [this, ht]
        · rw [randomSearchGo, ht]
          simp [jsTruthy, hb]
      · -- recurse
        have hrec := ih (a + 1) (by omega) (by omega)
        rcases hrec with ⟨i, hi1, hi2, hi3, hi4, hi5⟩ | ⟨hall, hnone⟩
        · left
          refine ⟨i, by omega, hi2, hi3, ?_, ?_⟩
          · intro j hj1 hj2
            rcases Nat.eq_or_lt_of_le hj1 with rfl | hj
            · exact ht
            · exact hi4 j (by omega) hj2
          · rw [randomSearchGo, ht]
            simp only [Bool.false_eq_true, if_false]
            rw [if_neg (by omega)]
            exact hi5
        · right
          refine ⟨?_, ?_⟩
          · intro i hai hi1001
            rcases Nat.eq_or_lt_of_le hai with rfl | hi
            · exact ht
            · exact hall i (by omega) hi1001
          · rw [randomSearchGo, ht]
            simp only [Bool.false_eq_true, if_false]
            rw [if_neg (by omega)]
            exact hnone
    · left
      refine ⟨a, le_refl a, ha, ht, fun j hj1 hj2 => by omega, ?_⟩
      rw [randomSearchGo, ht]
      simp

/-- C9 (amended): the current-variant random search functions return the first
compliant draw among draws `0..1001` (the `attempts++ > 1000` check allows
1002 tested draws, not 1000), and the absent value exactly when all 1002 of
those draws fail; a non-compliant color is never returned. -/
theorem claim9_first_compliant_or_none (pw : ℚ → ℚ) (draws : ℕ → ℕ)
    (background : List Char) (large : Bool) :
    ((∃ i, i ≤ 1001 ∧
        jsTruthy (isAAContrast pw background (randomColor (draws i)) large) = true ∧
        (∀ j, j < i →
          jsTruthy (isAAContrast pw background (randomColor (draws j)) large) = false) ∧
        getRandomAAColor pw draws background large = some (randomColor (draws i))) ∨
      ((∀ i, i ≤ 1001 →
          jsTruthy (isAAContrast pw background (randomColor (draws i)) large) = false) ∧
        getRandomAAColor pw draws background large = none)) ∧
    ((∃ i, i ≤ 1001 ∧
        jsTruthy (isAAAContrast pw background (randomColor (draws i)) large) = true ∧
        (∀ j, j < i →
          jsTruthy (isAAAContrast pw background (randomColor (draws j)) large) = false) ∧
        getRandomAAAColor pw draws background large = some (randomColor (draws i))) ∨
      ((∀ i, i ≤ 1001 →
          jsTruthy (isAAAContrast pw background (randomColor (draws i)) large) = false) ∧
        getRandomAAAColor pw draws background large = none)) := by
  constructor
  · have h := randomSearchGo_spec (fun c => isAAContrast pw background c large) draws
      1002 0 (by omega) (by omega)
    rcases h with ⟨i, _, hi2, hi3, hi4, hi5⟩ | ⟨hall, hnone⟩
    · exact Or.inl ⟨i, hi2, hi3, fun j hj => hi4 j (by omega) hj, hi5⟩
    · exact Or.inr ⟨fun i hi => hall i (by omega) hi, hnone⟩
  · have h := randomSearchGo_spec (fun c => isAAAContrast pw background c large) draws
      1002 0 (by omega) (by omega)
    rcases h with ⟨i, _, hi2, hi3, hi4, hi5⟩ | ⟨hall, hnone⟩
    · exact Or.inl ⟨i, hi2, hi3, fun j hj => hi4 j (by omega) hj, hi5⟩
    · exact Or.inr ⟨fun i hi => hall i (by omega) hi, hnone⟩

/-- C9 counterexample: with a draw stream whose first 1001 draws are all
non-compliant and whose 1002nd draw (index 1001) is compliant, the
current-variant `getRandomAAColor` returns that 1002nd draw instead of the
absent value — so it does not stop after `maxAttempts = 1000` failed draws. -/
theorem claim9_cex :
    (∀ j, j < 1001 → jsTruthy (isAAContrast (fun _ => 1) ("#000000".data)
      (randomColor ((fun i => if i < 1001 then 0 else 16777215) j)) false) = false) ∧
    getRandomAAColor (fun _ => 1) (fun i => if i < 1001 then 0 else 16777215)
      ("#000000".data) false = some ("#ffffff".data) := by
  have hb : randomColor 0 = "#000000".data := by decide
  have hw : randomColor 16777215 = "#ffffff".data := by decide
  have f1 : jsTruthy (isAAContrast (fun _ => (1 : ℚ)) ("#000000".data)
      ("#000000".data) false) = false := by
    unfold isAAContrast isContrasting
    have hc : getContrast (fun _ => (1 : ℚ)) (some ("#000000".data))
        (some ("#000000".data)) 3 = some 1 := by
      rw [getContrast_some_some, getLuminance_black]
      norm_num [jsRound]
    rw [hc]
    norm_num [jsTruthy]
  have f2 : jsTruthy (isAAContrast (fun _ => (1 : ℚ)) ("#000000".data)
      ("#ffffff".data) false) = true := by
    unfold isAAContrast isContrasting
    have hc : getContrast (fun _ => (1 : ℚ)) (some ("#000000".data))
        (some ("#ffffff".data)) 3 = some 21 := by
      rw [getContrast_comm, getContrast_white_black_const 1 (by norm_num)]
      norm_num [jsRound]
    rw [hc]
    norm_num [jsTruthy]
  have hdraw : ∀ j, j < 1001 →
      randomColor ((fun i => if i < 1001 then 0 else 16777215) j) = "#000000".data := by
    intro j hj
    simp only [hj, if_pos]
    exact hb
  have hdraw1001 :
      randomColor ((fun i => if i < 1001 then 0 else 16777215) 1001) = "#ffffff".data := by
    norm_num
    exact hw
  constructor
  · intro j hj
    rw [hdraw j hj]
    exact f1
  · obtain h | h := randomSearchGo_spec
      (fun c => isAAContrast (fun _ => (1 : ℚ)) ("#000000".data) c false)
      (fun i => if i < 1001 then 0 else 16777215) 1002 0 (by omega) (by omega)
    · obtain ⟨i, _, hi2, hi3, hi4, hi5⟩ := h
      have hi1001 : i = 1001 := by
        by_contra hne
        have hlt : i < 1001 := by omega
        rw [hdraw i hlt] at hi3
        rw [f1] at hi3
        simp at hi3
      subst hi1001
      rw [hdraw1001] at hi5
      unfold getRandomAAColor
      exact hi5
    · exfalso
      have := h.1 1001 (by omega) (by omega)
      rw [hdraw1001, f2] at this
      simp at this

/-! ### Hexadecimal encode / decode machinery (for C7 and the string round-trips) -/

theorem lor_eq_add_of_lt (a b k : ℕ) (hb : b < 2 ^ k) :
    (a * 2 ^ k) ||| b = a * 2 ^ k + b := by
  apply Nat.eq_of_testBit_eq
  intro i
  rw [Nat.testBit_lor]
  have hmul := Nat.testBit_mul_pow_two_add a hb i
  rw [mul_comm (2 ^ k) a] at hmul
  rw [hmul, ← Nat.shiftLeft_eq, Nat.testBit_shiftLeft]
  by_cases hik : i < k
  · have hik2 : ¬(i ≥ k) := by omega
    simp [hik, hik2]
  · have hbf : b.testBit i = false :=
      Nat.testBit_lt_two_pow (lt_of_lt_of_le hb (Nat.pow_le_pow_right (by norm_num) (by omega)))
    have hik2 : i ≥ k := by omega
    simp [hik, hik2, hbf]

theorem rgbToHex_encode (r g b : ℕ) (hr : r ≤ 255) (hg : g ≤ 255) (hb : b ≤ 255) :
    (r <<< 16) ||| (g <<< 8) ||| b = r * 65536 + g * 256 + b := by
  have hglt : g * 2 ^ 8 < 2 ^ 16 := by
    have h := Nat.mul_le_mul_right (2 ^ 8) hg
    calc g * 2 ^ 8 ≤ 255 * 2 ^ 8 := h
    _ < 2 ^ 16 := by norm_num
  have h1 : (r <<< 16) ||| (g <<< 8) = r * 2 ^ 16 + g * 2 ^ 8 := by
    rw [Nat.shiftLeft_eq, Nat.shiftLeft_eq]
    exact lor_eq_add_of_lt r (g * 2 ^ 8) 16 hglt
  rw [h1]
  have h2 : r * 2 ^ 16 + g * 2 ^ 8 = (r * 256 + g) * 2 ^ 8 := by ring
  rw [h2, lor_eq_add_of_lt (r * 256 + g) b 8 (by omega)]
  ring

theorem natToHexAux_fuel_congr :
    ∀ f1 n f2 : ℕ, n < 16 ^ f1 → n < 16 ^ f2 → 0 < f1 → 0 < f2 →
      natToHexAux f1 n = natToHexAux f2 n := by
  intro f1
  induction f1 with
  | zero => omega
  | succ f ih =>
    intro n f2 hn1 hn2 _ hf2
    cases f2 with
    | zero => omega
    | succ f2 =>
      simp only [natToHexAux]
      by_cases h16 : n < 16
      · rw [if_pos h16, if_pos h16]
      · rw [if_neg h16, if_neg h16]
        have hp1 : 16 ^ (f + 1) = 16 ^ f * 16 := pow_succ 16 f
        have hp2 : 16 ^ (f2 + 1) = 16 ^ f2 * 16 := pow_succ 16 f2
        have hd1 : n / 16 < 16 ^ f := by
          rw [Nat.div_lt_iff_lt_mul (by norm_num)]
          omega
        have hd2 : n / 16 < 16 ^ f2 := by
          rw [Nat.div_lt_iff_lt_mul (by norm_num)]
          omega
        have hf0 : 0 < f := by
          rcases Nat.eq_zero_or_pos f with rfl | h
          · simp at hn1
            omega
          · exact h
        have hf20 : 0 < f2 := by
          rcases Nat.eq_zero_or_pos f2 with rfl | h
          · simp at hn2
            omega
          · exact h
        rw [ih (n / 16) f2 hd1 hd2 hf0 hf20]

theorem natToHex_rec (n : ℕ) :
    natToHex n =
      if n < 16 then [hexDigitChar n]
      else natToHex (n / 16) ++ [hexDigitChar (n % 16)] := by
  unfold natToHex
  by_cases h16 : n < 16
  · rw [if_pos h16, natToHexAux_eq]
    rw [if_neg (Nat.succ_ne_zero n), if_pos h16]
  · rw [if_neg h16, natToHexAux_eq]
    rw [if_neg (Nat.succ_ne_zero n), if_neg h16]
    simp only [Nat.add_sub_cancel]
    congr 1
    apply natToHexAux_fuel_congr
    · calc n / 16 ≤ n := Nat.div_le_self n 16
      _ < 2 ^ n := Nat.lt_two_pow n
      _ ≤ 16 ^ n := Nat.pow_le_pow_left (by norm_num) n
    · calc n / 16 < 2 ^ (n / 16) := Nat.lt_two_pow _
      _ ≤ 16 ^ (n / 16) := Nat.pow_le_pow_left (by norm_num) _
      _ ≤ 16 ^ (n / 16 + 1) := Nat.pow_le_pow_right (by norm_num) (Nat.le_succ _)
    · omega
    · omega

theorem hexDigitValue_lt {c : Char} {d : ℕ} (h : hexDigitValue c = some d) :
    d < 16 := by
  unfold hexDigitValue at h
  split_ifs at h with h1 h2 h3 <;> injection h with h' <;> subst h'
  · have g2 : c.toNat ≤ ('9').toNat := Char.le_def.mp h1.2
    have e2 : ('9').toNat = 57 := rfl
    omega
  · have g2 : c.toNat ≤ ('f').toNat := Char.le_def.mp h2.2
    have g1 : ('a').toNat ≤ c.toNat := Char.le_def.mp h2.1
    have e1 : ('a').toNat = 97 := rfl
    have e2 : ('f').toNat = 102 := rfl
    omega
  · have g2 : c.toNat ≤ ('F').toNat := Char.le_def.mp h3.2
    have g1 : ('A').toNat ≤ c.toNat := Char.le_def.mp h3.1
    have e1 : ('A').toNat = 65 := rfl
    have e2 : ('F').toNat = 70 := rfl
    omega

theorem hexDigitValue_hexDigitChar (d : ℕ) (hd : d < 16) :
    hexDigitValue (hexDigitChar d) = some d := by
  interval_cases d <;> decide

theorem CanonHexDigit.value {c : Char} (h : CanonHexDigit c) :
    ∃ d : ℕ, d < 16 ∧ c = hexDigitChar d ∧ hexDigitValue c = some d := by
  obtain ⟨d, rfl⟩ := h
  exact ⟨d.val, d.isLt, rfl, hexDigitValue_hexDigitChar d.val d.isLt⟩

theorem natToHex_canon (n : ℕ) : ∀ c ∈ natToHex n, CanonHexDigit c := by
  induction n using Nat.strong_induction_on with
  | _ n ih =>
    rw [natToHex_rec]
    by_cases h16 : n < 16
    · rw [if_pos h16]
      intro c hc
      simp only [List.mem_singleton] at hc
      exact ⟨⟨n, h16⟩, hc⟩
    · rw [if_neg h16]
      intro c hc
      rcases List.mem_append.mp hc with hc | hc
      · exact ih (n / 16) (Nat.div_lt_self (by omega) (by norm_num)) c hc
      · simp only [List.mem_singleton] at hc
        exact ⟨⟨n % 16, Nat.mod_lt n (by norm_num)⟩, hc⟩

theorem natToHex_ne_nil (n : ℕ) : natToHex n ≠ [] := by
  rw [natToHex_rec]
  by_cases h16 : n < 16
  · rw [if_pos h16]
    simp
  · rw [if_neg h16]
    simp

theorem natToHex_length_le (k : ℕ) : ∀ n, n < 16 ^ k → 0 < k →
    (natToHex n).length ≤ k := by
  induction k with
  | zero => omega
  | succ k ih =>
    intro n hn _
    rw [natToHex_rec]
    by_cases h16 : n < 16
    · rw [if_pos h16]
      simp
    · rw [if_neg h16]
      rw [List.length_append, List.length_singleton]
      have hk : 0 < k := by
        rcases Nat.eq_zero_or_pos k with rfl | h
        · norm_num at hn
          omega
        · exact h
      have : (natToHex (n / 16)).length ≤ k := by
        apply ih _ _ hk
        rw [Nat.div_lt_iff_lt_mul (by norm_num)]
        calc n < 16 ^ (k + 1) := hn
        _ = 16 ^ k * 16 := pow_succ 16 k
      omega

theorem parseIntHexGo_shift (ds : List Char) :
    ∀ acc, (∀ c ∈ ds, (hexDigitValue c).isSome) →
      parseIntHexGo ds acc = acc * 16 ^ ds.length + parseIntHexGo ds 0 := by
  induction ds with
  | nil => intro acc _; simp [parseIntHexGo]
  | cons c cs ih =>
    intro acc hall
    have hc : (hexDigitValue c).isSome := hall c (List.mem_cons_self c cs)
    obtain ⟨d, hd⟩ := Option.isSome_iff_exists.mp hc
    have hcs : ∀ x ∈ cs, (hexDigitValue x).isSome := fun x hx =>
      hall x (List.mem_cons_of_mem c hx)
    simp only [parseIntHexGo, hd]
    rw [ih (16 * acc + d) hcs, ih (16 * 0 + d) hcs]
    simp only [List.length_cons]
    ring

theorem parseIntHexGo_cons (c : Char) (cs : List Char) (d : ℕ)
    (hd : hexDigitValue c = some d)
    (hcs : ∀ x ∈ cs, (hexDigitValue x).isSome) :
    parseIntHexGo (c :: cs) 0 = d * 16 ^ cs.length + parseIntHexGo cs 0 := by
  simp only [parseIntHexGo, hd]
  rw [parseIntHexGo_shift cs (16 * 0 + d) hcs]
  ring

theorem parseIntHexGo_lt (ds : List Char)
    (hall : ∀ c ∈ ds, (hexDigitValue c).isSome) :
    parseIntHexGo ds 0 < 16 ^ ds.length := by
  induction ds with
  | nil => simp [parseIntHexGo]
  | cons c cs ih =>
    have hc : (hexDigitValue c).isSome := hall c (List.mem_cons_self c cs)
    obtain ⟨d, hd⟩ := Option.isSome_iff_exists.mp hc
    have hcs : ∀ x ∈ cs, (hexDigitValue x).isSome := fun x hx =>
      hall x (List.mem_cons_of_mem c hx)
    rw [parseIntHexGo_cons c cs d hd hcs]
    have h1 := ih hcs
    have h2 : d < 16 := hexDigitValue_lt hd
    have h3 : d * 16 ^ cs.length + parseIntHexGo cs 0 <
        d * 16 ^ cs.length + 16 ^ cs.length := by omega
    calc d * 16 ^ cs.length + parseIntHexGo cs 0
        < d * 16 ^ cs.length + 16 ^ cs.length := h3
    _ = (d + 1) * 16 ^ cs.length := by ring
    _ ≤ 16 * 16 ^ cs.length := Nat.mul_le_mul_right _ (by omega)
    _ = 16 ^ (cs.length + 1) := by rw [pow_succ]; ring
    _ = 16 ^ (c :: cs).length := by simp

theorem parseIntHexGo_zeros (k : ℕ) (ds : List Char) :
    parseIntHexGo (List.replicate k '0' ++ ds) 0 = parseIntHexGo ds 0 := by
  induction k with
  | zero => simp
  | succ k ih =>
    rw [List.replicate_succ, List.cons_append]
    have h0 : hexDigitValue '0' = some 0 := by decide
    simp only [parseIntHexGo, h0]
    simpa using ih

theorem parseIntHex_of_digits (ds : List Char) (hne : ds ≠ [])
    (hall : ∀ c ∈ ds, (hexDigitValue c).isSome) :
    parseIntHex ds = some (parseIntHexGo ds 0) := by
  cases ds with
  | nil => exact absurd rfl hne
  | cons c cs =>
    have hc : (hexDigitValue c).isSome := hall c (List.mem_cons_self c cs)
    obtain ⟨d, hd⟩ := Option.isSome_iff_exists.mp hc
    simp only [parseIntHex, parseIntHexGo, hd]
    norm_num

theorem parseIntHexGo_natToHex (n : ℕ) : parseIntHexGo (natToHex n) 0 = n := by
  induction n using Nat.strong_induction_on with
  | _ n ih =>
    rw [natToHex_rec]
    by_cases h16 : n < 16
    · rw [if_pos h16]
      simp only [parseIntHexGo, hexDigitValue_hexDigitChar n h16]
      omega
    · rw [if_neg h16]
      have hrec := ih (n / 16) (Nat.div_lt_self (by omega) (by norm_num))
      have happ : ∀ (xs : List Char) (c : Char) (d : ℕ),
          (∀ x ∈ xs, (hexDigitValue x).isSome) → hexDigitValue c = some d →
          ∀ acc, parseIntHexGo (xs ++ [c]) acc = 16 * parseIntHexGo xs acc + d := by
        intro xs
        induction xs with
        | nil => intro c d _ hd acc; simp [parseIntHexGo, hd]
        | cons x xs ihx =>
          intro c d hall hd acc
          have hx : (hexDigitValue x).isSome := hall x (List.mem_cons_self x xs)
          obtain ⟨dx, hdx⟩ := Option.isSome_iff_exists.mp hx
          have hxs : ∀ y ∈ xs, (hexDigitValue y).isSome := fun y hy =>
            hall y (List.mem_cons_of_mem x hy)
          simp only [List.cons_append, parseIntHexGo, hdx]
          exact ihx c d hxs hd (16 * acc + dx)
      rw [happ (natToHex (n / 16)) (hexDigitChar (n % 16)) (n % 16)
        (fun x hx => ((natToHex_canon (n / 16) x hx).value).choose_spec.2.2 ▸
          Option.isSome_some)
        (hexDigitValue_hexDigitChar (n % 16) (Nat.mod_lt n (by norm_num))) 0]
      rw [hrec]
      omega

theorem parseIntHex_pad_natToHex (n : ℕ) :
    parseIntHex (padStart 6 '0' (natToHex n)) = some n := by
  unfold padStart
  have hall : ∀ c ∈ List.replicate (6 - (natToHex n).length) '0' ++ natToHex n,
      (hexDigitValue c).isSome := by
    intro c hc
    rcases List.mem_append.mp hc with hc | hc
    · rw [List.eq_of_mem_replicate hc]
      decide
    · obtain ⟨d, _, rfl, hv⟩ := (natToHex_canon n c hc).value
      rw [hv]
      exact Option.isSome_some
  have hne : List.replicate (6 - (natToHex n).length) '0' ++ natToHex n ≠ [] := by
    intro h
    exact natToHex_ne_nil n (List.append_eq_nil.mp h).2
  rw [parseIntHex_of_digits _ hne hall, parseIntHexGo_zeros, parseIntHexGo_natToHex]

/-- The exact RGB → Hex → RGB round-trip for 8-bit channels. -/
theorem hexToRgb_rgbToHex (c : RGB) (hr : c.r ≤ 255) (hg : c.g ≤ 255)
    (hb : c.b ≤ 255) : hexToRgb (rgbToHex c) = c := by
  obtain ⟨r, g, b⟩ := c
  simp only at hr hg hb
  unfold rgbToHex hexToRgb
  have hstrip : jsStripHash ('#' :: padStart 6 '0'
      (natToHex (r <<< 16 ||| g <<< 8 ||| b))) =
      padStart 6 '0' (natToHex (r <<< 16 ||| g <<< 8 ||| b)) := rfl
  rw [hstrip, parseIntHex_pad_natToHex, rgbToHex_encode r g b hr hg hb]
  have henc : r * 65536 + g * 256 + b < 2 ^ 32 := by omega
  simp only [Option.getD_some]
  rw [Nat.mod_eq_of_lt henc]
  congr 1 <;> omega

theorem parseIntHexGo_inj :
    ∀ ds1 ds2 : List Char, (∀ c ∈ ds1, CanonHexDigit c) →
      (∀ c ∈ ds2, CanonHexDigit c) → ds1.length = ds2.length →
      parseIntHexGo ds1 0 = parseIntHexGo ds2 0 → ds1 = ds2 := by
  intro ds1
  induction ds1 with
  | nil =>
    intro ds2 _ _ hlen _
    cases ds2 with
    | nil => rfl
    | cons c cs => simp at hlen
  | cons c1 cs1 ih =>
    intro ds2 hc1 hc2 hlen hval
    cases ds2 with
    | nil => simp at hlen
    | cons c2 cs2 =>
      obtain ⟨d1, hd1lt, hc1eq, hv1⟩ := (hc1 c1 (List.mem_cons_self c1 cs1)).value
      obtain ⟨d2, hd2lt, hc2eq, hv2⟩ := (hc2 c2 (List.mem_cons_self c2 cs2)).value
      have hcs1 : ∀ x ∈ cs1, CanonHexDigit x := fun x hx =>
        hc1 x (List.mem_cons_of_mem c1 hx)
      have hcs2 : ∀ x ∈ cs2, CanonHexDigit x := fun x hx =>
        hc2 x (List.mem_cons_of_mem c2 hx)
      have hsome1 : ∀ x ∈ cs1, (hexDigitValue x).isSome := by
        intro x hx
        obtain ⟨d, _, _, hv⟩ := (hcs1 x hx).value
        rw [hv]
        exact Option.isSome_some
      have hsome2 : ∀ x ∈ cs2, (hexDigitValue x).isSome := by
        intro x hx
        obtain ⟨d, _, _, hv⟩ := (hcs2 x hx).value
        rw [hv]
        exact Option.isSome_some
      have hlen' : cs1.length = cs2.length := by simpa using hlen
      rw [parseIntHexGo_cons c1 cs1 d1 hv1 hsome1,
        parseIntHexGo_cons c2 cs2 d2 hv2 hsome2, hlen'] at hval
      have hb1 := parseIntHexGo_lt cs1 hsome1
      have hb2 := parseIntHexGo_lt cs2 hsome2
      rw [hlen'] at hb1
      have hd : d1 = d2 := by
        have e1 : (d1 * 16 ^ cs2.length + parseIntHexGo cs1 0) / 16 ^ cs2.length = d1 := by
          rw [mul_comm, Nat.mul_add_div (Nat.pos_pow_of_pos _ (by norm_num))]
          rw [Nat.div_eq_of_lt hb1]
          omega
        have e2 : (d2 * 16 ^ cs2.length + parseIntHexGo cs2 0) / 16 ^ cs2.length = d2 := by
          rw [mul_comm, Nat.mul_add_div (Nat.pos_pow_of_pos _ (by norm_num))]
          rw [Nat.div_eq_of_lt hb2]
          omega
        rw [← e1, ← e2, hval]
      subst hd
      have hveq : parseIntHexGo cs1 0 = parseIntHexGo cs2 0 := by omega
      have hche : c1 = c2 := by
        rw [hc1eq, hc2eq]
      rw [hche, ih cs2 hcs1 hcs2 hlen' hveq]

/-- The exact canonical Hex → RGB → Hex round-trip. -/
theorem rgbToHex_hexToRgb (s : List Char) (hs : CanonHexColor s) :
    rgbToHex (hexToRgb s) = s := by
  obtain ⟨ds, rfl, hlen, hcanon⟩ := hs
  have hsome : ∀ x ∈ ds, (hexDigitValue x).isSome := by
    intro x hx
    obtain ⟨d, _, _, hv⟩ := (hcanon x hx).value
    rw [hv]
    exact Option.isSome_some
  have hne : ds ≠ [] := by
    intro h
    rw [h] at hlen
    simp at hlen
  have hparse : parseIntHex ds = some (parseIntHexGo ds 0) :=
    parseIntHex_of_digits ds hne hsome
  set v := parseIntHexGo ds 0 with hv
  have hvlt : v < 16 ^ 6 := by
    have := parseIntHexGo_lt ds hsome
    rwa [hlen] at this
  unfold hexToRgb
  have hstrip : jsStripHash ('#' :: ds) = ds := rfl
  rw [hstrip, hparse]
  simp only [Option.getD_some]
  have hmod : v % 2 ^ 32 = v := Nat.mod_eq_of_lt (by omega)
  rw [hmod]
  unfold rgbToHex
  have hr : v / 2 ^ 16 % 256 = v / 65536 := by
    have : v / 2 ^ 16 < 256 := by omega
    omega
  have henc : (v / 2 ^ 16 % 256) <<< 16 ||| (v / 2 ^ 8 % 256) <<< 8 ||| v % 256 = v := by
    rw [rgbToHex_encode _ _ _ (by omega) (by omega) (by omega)]
    omega
  rw [henc]
  congr 1
  apply parseIntHexGo_inj
  · intro c hc
    unfold padStart at hc
    rcases List.mem_append.mp hc with hc | hc
    · rw [List.eq_of_mem_replicate hc]
      exact ⟨⟨0, by norm_num⟩, rfl⟩
    · exact natToHex_canon v c hc
  · exact hcanon
  · unfold padStart
    rw [List.length_append, List.length_replicate, hlen]
    have : (natToHex v).length ≤ 6 := natToHex_length_le 6 v hvlt (by norm_num)
    omega
  · unfold padStart
    rw [parseIntHexGo_zeros, parseIntHexGo_natToHex]

/-- C7 counterexample helper and amended theorem below. -/
theorem claim7_roundtrip :
    (∀ c : RGB, c.r ≤ 255 → c.g ≤ 255 → c.b ≤ 255 → hexToRgb (rgbToHex c) = c) ∧
    (∀ s : List Char, CanonHexColor s → rgbToHex (hexToRgb s) = s) :=
  ⟨hexToRgb_rgbToHex, rgbToHex_hexToRgb⟩

/-- Witness for C7's amended statement at concrete inputs. -/
theorem claim7_witness :
    hexToRgb (rgbToHex ⟨171, 205, 239⟩) = ⟨171, 205, 239⟩ ∧
    rgbToHex (hexToRgb ("#abc123".data)) = "#abc123".data := by
  constructor
  · exact claim7_roundtrip.1 ⟨171, 205, 239⟩ (by norm_num) (by norm_num) (by norm_num)
  · apply claim7_roundtrip.2
    refine ⟨"abc123".data, rfl, by decide, ?_⟩
    intro c hc
    have : CanonHexDigit 'a' ∧ CanonHexDigit 'b' ∧ CanonHexDigit 'c' ∧
        CanonHexDigit '1' ∧ CanonHexDigit '2' ∧ CanonHexDigit '3' := by
      refine ⟨⟨10, ?_⟩, ⟨11, ?_⟩, ⟨12, ?_⟩, ⟨1, ?_⟩, ⟨2, ?_⟩, ⟨3, ?_⟩⟩ <;> decide
    fin_cases hc <;> tauto

/-! ### Exactness of the RGB → HSL → RGB round-trip -/

theorem hue2rgb_norm (p q t0 : ℚ) (h0 : 0 ≤ t0) (h1 : t0 ≤ 1) :
    hue2rgb p q t0 =
      if t0 < 1 / 6 then p + (q - p) * 6 * t0
      else if t0 < 1 / 2 then q
      else if t0 < 2 / 3 then p + (q - p) * (2 / 3 - t0) * 6
      else p := by
  unfold hue2rgb
  dsimp only
  rw [if_neg (by linarith : ¬t0 < 0), if_neg (by linarith : ¬t0 > 1)]

theorem hue2rgb_first (p q t0 : ℚ) (h0 : 0 ≤ t0) (h1 : t0 ≤ 1 / 6) :
    hue2rgb p q t0 = p + (q - p) * 6 * t0 := by
  rw [hue2rgb_norm p q t0 h0 (by linarith)]
  rcases lt_or_eq_of_le h1 with h | h
  · rw [if_pos h]
  · subst h
    rw [if_neg (by norm_num), if_pos (by norm_num)]
    ring

theorem hue2rgb_q (p q t0 : ℚ) (h0 : 1 / 6 ≤ t0) (h1 : t0 ≤ 1 / 2) :
    hue2rgb p q t0 = q := by
  rw [hue2rgb_norm p q t0 (by linarith) (by linarith)]
  rw [if_neg (by linarith)]
  rcases lt_or_eq_of_le h1 with h | h
  · rw [if_pos h]
  · subst h
    rw [if_neg (by norm_num), if_pos (by norm_num)]
    ring

theorem hue2rgb_third (p q t0 : ℚ) (h0 : 1 / 2 ≤ t0) (h1 : t0 ≤ 2 / 3) :
    hue2rgb p q t0 = p + (q - p) * (2 / 3 - t0) * 6 := by
  rw [hue2rgb_norm p q t0 (by linarith) (by linarith)]
  rw [if_neg (by linarith), if_neg (by linarith)]
  rcases lt_or_eq_of_le h1 with h | h
  · rw [if_pos h]
  · subst h
    rw [if_neg (by norm_num)]
    ring

theorem hue2rgb_p (p q t0 : ℚ) (h0 : 2 / 3 ≤ t0) (h1 : t0 ≤ 1) :
    hue2rgb p q t0 = p := by
  rw [hue2rgb_norm p q t0 (by linarith) h1]
  rw [if_neg (by linarith), if_neg (by linarith), if_neg (by linarith)]

theorem hue2rgb_neg (p q t0 : ℚ) (h0 : -1 ≤ t0) (h1 : t0 < 0) :
    hue2rgb p q t0 = hue2rgb p q (t0 + 1) := by
  unfold hue2rgb
  dsimp only
  rw [if_pos h1, if_neg (by linarith : ¬t0 + 1 > 1),
    if_neg (by linarith : ¬t0 + 1 < 0), if_neg (by linarith : ¬t0 + 1 > 1)]

theorem hue2rgb_gt (p q t0 : ℚ) (h0 : 1 < t0) (h1 : t0 ≤ 2) :
    hue2rgb p q t0 = hue2rgb p q (t0 - 1) := by
  unfold hue2rgb
  dsimp only
  rw [if_neg (by linarith : ¬t0 < 0), if_pos (by linarith : t0 > 1),
    if_neg (by linarith : ¬t0 - 1 < 0), if_neg (by linarith : ¬t0 - 1 > 1)]

theorem jsRound_intCast (n : ℤ) : jsRound ((n : ℚ)) = n := by
  unfold jsRound
  rw [Int.floor_eq_iff]
  constructor <;> push_cast <;> linarith

theorem jsRound_natCast (n : ℕ) : jsRound ((n : ℚ)) = (n : ℤ) := by
  have : ((n : ℤ) : ℚ) = (n : ℚ) := by push_cast; rfl
  rw [← this, jsRound_intCast]

set_option maxHeartbeats 2000000 in
theorem hslToRgb_rgbToHsl (c : RGB) (hr : c.r ≤ 255) (hg : c.g ≤ 255)
    (hb : c.b ≤ 255) : hslToRgb (rgbToHsl c) = c := by
  obtain ⟨r, g, b⟩ := c
  simp only at hr hg hb
  unfold rgbToHsl
  dsimp only
  set x : ℚ := (r : ℚ) / 255 with hxdef
  set y : ℚ := (g : ℚ) / 255 with hydef
  set z : ℚ := (b : ℚ) / 255 with hzdef
  have hx0 : 0 ≤ x := by positivity
  have hy0 : 0 ≤ y := by positivity
  have hz0 : 0 ≤ z := by positivity
  have hx1 : x ≤ 1 := by
    rw [hxdef, div_le_one (by norm_num)]
    exact_mod_cast hr
  have hy1 : y ≤ 1 := by
    rw [hydef, div_le_one (by norm_num)]
    exact_mod_cast hg
  have hz1 : z ≤ 1 := by
    rw [hzdef, div_le_one (by norm_num)]
    exact_mod_cast hb
  have hroundx : (jsRound (x * 255)).toNat = r := by
    have hxx : x * 255 = ((r : ℤ) : ℚ) := by
      rw [hxdef]
      push_cast
      field_simp
    rw [hxx, jsRound_intCast]
    simp
  have hroundy : (jsRound (y * 255)).toNat = g := by
    have hyy : y * 255 = ((g : ℤ) : ℚ) := by
      rw [hydef]
      push_cast
      field_simp
    rw [hyy, jsRound_intCast]
    simp
  have hroundz : (jsRound (z * 255)).toNat = b := by
    have hzz : z * 255 = ((b : ℤ) : ℚ) := by
      rw [hzdef]
      push_cast
      field_simp
    rw [hzz, jsRound_intCast]
    simp
  clear_value x y z
  by_cases heq : max x (max y z) = min x (min y z)
  · rw [if_pos heq]
    have hxm : x = max x (max y z) := by
      apply le_antisymm (le_max_left _ _)
      rw [heq]
      exact min_le_left _ _
    have hym : y = max x (max y z) := by
      apply le_antisymm (le_trans (le_max_left _ _) (le_max_right _ _))
      rw [heq]
      exact le_trans (min_le_right _ _) (min_le_left _ _)
    have hzm : z = max x (max y z) := by
      apply le_antisymm (le_trans (le_max_right _ _) (le_max_right _ _))
      rw [heq]
      exact le_trans (min_le_right _ _) (min_le_right _ _)
    unfold hslToRgb
    dsimp only
    rw [if_pos rfl]
    have hl : (max x (max y z) + min x (min y z)) / 2 = x := by
      rw [← heq, ← hxm]
      ring
    rw [hl, hroundx]
    have hgr : g = r := by
      have : y = x := by rw [hym, ← hxm]
      rw [hydef, hxdef] at this
      have : (g : ℚ) = (r : ℚ) := by
        field_simp at this
        exact_mod_cast this
      exact_mod_cast this
    have hbr : b = r := by
      have : z = x := by rw [hzm, ← hxm]
      rw [hzdef, hxdef] at this
      have : (b : ℚ) = (r : ℚ) := by
        field_simp at this
        exact_mod_cast this
      exact_mod_cast this
    rw [hgr, hbr]
  · rw [if_neg heq]
    set mx := max x (max y z) with hmxdef
    set mn := min x (min y z) with hmndef
    have hmxx : x ≤ mx := le_max_left _ _
    have hmxy : y ≤ mx := le_trans (le_max_left _ _) (le_max_right _ _)
    have hmxz : z ≤ mx := le_trans (le_max_right _ _) (le_max_right _ _)
    have hmnx : mn ≤ x := min_le_left _ _
    have hmny : mn ≤ y := le_trans (min_le_right _ _) (min_le_left _ _)
    have hmnz : mn ≤ z := le_trans (min_le_right _ _) (min_le_right _ _)
    have hmn0 : 0 ≤ mn := le_min hx0 (le_min hy0 hz0)
    have hmx1 : mx ≤ 1 := max_le hx1 (max_le hy1 hz1)
    have hlt : mn < mx :=
      lt_of_le_of_ne (le_trans hmnx hmxx) (fun h => heq h.symm)
    have hd : (0 : ℚ) < mx - mn := by linarith
    unfold hslToRgb
    dsimp only
    have hs0 : ¬(if (mx + mn) / 2 > 1 / 2 then (mx - mn) / (2 - mx - mn)
        else (mx - mn) / (mx + mn)) = 0 := by
      split_ifs with hl
      · have h2 : (0 : ℚ) < 2 - mx - mn := by linarith
        exact ne_of_gt (div_pos hd h2)
      · have h2 : (0 : ℚ) < mx + mn := by
          have : (0 : ℚ) < mx := lt_of_le_of_lt hmn0 hlt
          nlinarith [hmn0, this, hlt, hl]
        exact ne_of_gt (div_pos hd h2)
    rw [if_neg hs0]
    have hq : (if (mx + mn) / 2 < 1 / 2 then
        (mx + mn) / 2 * (1 + (if (mx + mn) / 2 > 1 / 2 then (mx - mn) / (2 - mx - mn)
          else (mx - mn) / (mx + mn)))
        else (mx + mn) / 2 + (if (mx + mn) / 2 > 1 / 2 then (mx - mn) / (2 - mx - mn)
          else (mx - mn) / (mx + mn)) - (mx + mn) / 2 *
          (if (mx + mn) / 2 > 1 / 2 then (mx - mn) / (2 - mx - mn)
            else (mx - mn) / (mx + mn))) = mx := by
      have hmxpos : (0 : ℚ) < mx := lt_of_le_of_lt hmn0 hlt
      have hsum : (0 : ℚ) < mx + mn := by linarith
      split_ifs with h1 h2 h2
      · linarith
      · field_simp
        ring
      · have hsum2 : (0 : ℚ) < 2 - mx - mn := by linarith
        field_simp
        ring
      · have hl2 : (mx + mn) / 2 = 1 / 2 := le_antisymm (not_lt.mp h2) (not_lt.mp h1)
        have hsum1 : mx + mn = 1 := by linarith
        rw [hsum1]
        field_simp
        linarith
    rw [hq]
    have hp : 2 * ((mx + mn) / 2) - mx = mn := by ring
    rw [hp]
    by_cases hcx : mx = x
    · rw [if_pos hcx]
      by_cases hyz : y < z
      · -- red is max, blue exceeds green
        rw [if_pos hyz]
        have hmny' : mn = y := by
          rw [hmndef, min_eq_left (le_of_lt hyz), min_eq_right (hcx ▸ hmxy)]
        have hdxy : (0 : ℚ) < x - y := by
          have := hd
          rw [hcx, hmny'] at this
          exact this
        have hzx : z ≤ x := hcx ▸ hmxz
        have hr0 : -1 ≤ (y - z) / (x - y) := by
          have h1 : (z - y) / (x - y) ≤ 1 := by
            rw [div_le_one hdxy]
            linarith
          have heqv : (y - z) / (x - y) = -((z - y) / (x - y)) := by ring
          rw [heqv]
          linarith
        have hr1 : (y - z) / (x - y) < 0 :=
          div_neg_of_neg_of_pos (by linarith) hdxy
        rw [hcx, hmny']
        simp only [RGB.mk.injEq]
        refine ⟨?_, ?_, ?_⟩
        · rw [hue2rgb_gt y x _ (by linarith) (by linarith),
            hue2rgb_q y x _ (by linarith) (by linarith)]
          exact hroundx
        · rw [hue2rgb_p y x _ (by linarith) (by linarith)]
          exact hroundy
        · rw [hue2rgb_third y x _ (by linarith) (by linarith)]
          have hval : y + (x - y) * (2 / 3 - (((y - z) / (x - y) + 6) / 6 - 1 / 3)) * 6 = z := by
            field_simp
            ring
          rw [hval]
          exact hroundz
      · -- red is max, green at least blue
        rw [if_neg hyz, add_zero]
        have hzy : z ≤ y := not_lt.mp hyz
        have hmnz' : mn = z := by
          rw [hmndef, min_eq_right hzy, min_eq_right (hcx ▸ hmxz)]
        have hdxz : (0 : ℚ) < x - z := by
          have := hd
          rw [hcx, hmnz'] at this
          exact this
        have hyx : y ≤ x := hcx ▸ hmxy
        have hr0 : 0 ≤ (y - z) / (x - z) := div_nonneg (by linarith) (le_of_lt hdxz)
        have hr1 : (y - z) / (x - z) ≤ 1 := by
          rw [div_le_one hdxz]
          linarith
        rw [hcx, hmnz']
        simp only [RGB.mk.injEq]
        refine ⟨?_, ?_, ?_⟩
        · rw [hue2rgb_q z x _ (by linarith) (by linarith)]
          exact hroundx
        · rw [hue2rgb_first z x _ (by linarith) (by linarith)]
          have hval : z + (x - z) * 6 * ((y - z) / (x - z) / 6) = y := by
            field_simp
          rw [hval]
          exact hroundy
        · rw [hue2rgb_neg z x _ (by linarith) (by linarith),
            hue2rgb_p z x _ (by linarith) (by linarith)]
          exact hroundz
    · rw [if_neg hcx]
      have hxltmx : x < mx := lt_of_le_of_ne hmxx (fun h => hcx h.symm)
      by_cases hcy : mx = y
      · rw [if_pos hcy]
        have hxy : x < y := hcy ▸ hxltmx
        by_cases hzx : z < x
        · -- green max, blue below red
          have hmnz' : mn = z := by
            rw [hmndef, min_eq_right (by linarith : z ≤ y),
              min_eq_right (le_of_lt hzx)]
          have hdyz : (0 : ℚ) < y - z := by
            have := hd
            rw [hcy, hmnz'] at this
            exact this
          have hr1 : (z - x) / (y - z) < 0 :=
            div_neg_of_neg_of_pos (by linarith) hdyz
          have hr0 : -1 ≤ (z - x) / (y - z) := by
            have h1 : (x - z) / (y - z) ≤ 1 := by
              rw [div_le_one hdyz]
              linarith
            have heqv : (z - x) / (y - z) = -((x - z) / (y - z)) := by ring
            rw [heqv]
            linarith
          rw [hcy, hmnz']
          simp only [RGB.mk.injEq]
          refine ⟨?_, ?_, ?_⟩
          · rw [hue2rgb_third z y _ (by linarith) (by linarith)]
            have hval : z + (y - z) * (2 / 3 - (((z - x) / (y - z) + 2) / 6 + 1 / 3)) * 6 = x := by
              have hne : y - z ≠ 0 := ne_of_gt hdyz
              field_simp
              ring
            rw [hval]
            exact hroundx
          · rw [hue2rgb_q z y _ (by linarith) (by linarith)]
            exact hroundy
          · rw [hue2rgb_neg z y _ (by linarith) (by linarith),
              hue2rgb_p z y _ (by linarith) (by linarith)]
            exact hroundz
        · -- green max, red at most blue
          have hxz : x ≤ z := not_lt.mp hzx
          have hmnx' : mn = x := by
            rw [hmndef, min_eq_left (le_min (le_of_lt hxy) hxz)]
          have hdyx : (0 : ℚ) < y - x := by
            have := hd
            rw [hcy, hmnx'] at this
            exact this
          have hr0 : 0 ≤ (z - x) / (y - x) := div_nonneg (by linarith) (le_of_lt hdyx)
          have hr1 : (z - x) / (y - x) ≤ 1 := by
            rw [div_le_one hdyx]
            have : z ≤ y := hcy ▸ hmxz
            linarith
          rw [hcy, hmnx']
          simp only [RGB.mk.injEq]
          refine ⟨?_, ?_, ?_⟩
          · rw [hue2rgb_p x y _ (by linarith) (by linarith)]
            exact hroundx
          · rw [hue2rgb_q x y _ (by linarith) (by linarith)]
            exact hroundy
          · rw [hue2rgb_first x y _ (by linarith) (by linarith)]
            have hval : x + (y - x) * 6 * (((z - x) / (y - x) + 2) / 6 - 1 / 3) = z := by
              have hne : y - x ≠ 0 := ne_of_gt hdyx
              field_simp
              ring
            rw [hval]
            exact hroundz
      · -- blue is the maximum
        rw [if_neg hcy]
        have hcz : mx = z := by
          rcases max_choice y z with h | h
          · rcases max_choice x (max y z) with h2 | h2
            · exact absurd h2 hcx
            · rw [hmxdef, h2, h] at hcy ⊢
              exact absurd rfl hcy
          · rcases max_choice x (max y z) with h2 | h2
            · exact absurd h2 hcx
            · rw [hmxdef, h2, h]
        have hyltmx : y < mx := lt_of_le_of_ne hmxy (fun h => hcy h.symm)
        have hxz : x < z := hcz ▸ hxltmx
        have hyz : y < z := hcz ▸ hyltmx
        by_cases hyx : y < x
        · -- blue max, green below red
          have hmny' : mn = y := by
            rw [hmndef, min_eq_left (le_of_lt hyz), min_eq_right (le_of_lt hyx)]
          have hdzy : (0 : ℚ) < z - y := by
            have := hd
            rw [hcz, hmny'] at this
            exact this
          have hr0 : 0 < (x - y) / (z - y) := div_pos (by linarith) hdzy
          have hr1 : (x - y) / (z - y) < 1 := by
            rw [div_lt_one hdzy]
            linarith
          rw [hcz, hmny']
          simp only [RGB.mk.injEq]
          refine ⟨?_, ?_, ?_⟩
          · rw [hue2rgb_gt y z _ (by linarith) (by linarith),
              hue2rgb_first y z _ (by linarith) (by linarith)]
            have hval : y + (z - y) * 6 * (((x - y) / (z - y) + 4) / 6 + 1 / 3 - 1) = x := by
              have hne : z - y ≠ 0 := ne_of_gt hdzy
              field_simp
              ring
            rw [hval]
            exact hroundx
          · rw [hue2rgb_p y z _ (by linarith) (by linarith)]
            exact hroundy
          · rw [hue2rgb_q y z _ (by linarith) (by linarith)]
            exact hroundz
        · -- blue max, red at most green
          have hxley : x ≤ y := not_lt.mp hyx
          have hmnx' : mn = x := by
            rw [hmndef, min_eq_left (le_of_lt hyz), min_eq_left hxley]
          have hdzx : (0 : ℚ) < z - x := by
            have := hd
            rw [hcz, hmnx'] at this
            exact this
          have hr1 : (x - y) / (z - x) ≤ 0 :=
            div_nonpos_of_nonpos_of_nonneg (by linarith) (le_of_lt hdzx)
          have hr0 : -1 < (x - y) / (z - x) := by
            have h1 : (y - x) / (z - x) < 1 := by
              rw [div_lt_one hdzx]
              linarith
            have heqv : (x - y) / (z - x) = -((y - x) / (z - x)) := by ring
            rw [heqv]
            linarith
          rw [hcz, hmnx']
          simp only [RGB.mk.injEq]
          refine ⟨?_, ?_, ?_⟩
          · rw [hue2rgb_p x z _ (by linarith) (by linarith)]
            exact hroundx
          · rw [hue2rgb_third x z _ (by linarith) (by linarith)]
            have hval : x + (z - x) * (2 / 3 - ((x - y) / (z - x) + 4) / 6) * 6 = y := by
              have hne : z - x ≠ 0 := ne_of_gt hdzx
              field_simp
              ring
            rw [hval]
            exact hroundy
          · rw [hue2rgb_q x z _ (by linarith) (by linarith)]
            exact hroundz

/-! ### Range lemmas for the HSL conversions -/

theorem qp_bounds (s l : ℚ) (hs0 : 0 ≤ s) (hs1 : s ≤ 1) (hl0 : 0 ≤ l)
    (hl1 : l ≤ 1) :
    0 ≤ 2 * l - (if l < 1 / 2 then l * (1 + s) else l + s - l * s) ∧
      2 * l - (if l < 1 / 2 then l * (1 + s) else l + s - l * s) ≤
        (if l < 1 / 2 then l * (1 + s) else l + s - l * s) ∧
      (if l < 1 / 2 then l * (1 + s) else l + s - l * s) ≤ 1 := by
  split_ifs with h
  · refine ⟨?_, ?_, ?_⟩ <;> nlinarith
  · refine ⟨?_, ?_, ?_⟩ <;> nlinarith

theorem hue2rgb_mem_aux (p q t0 : ℚ) (hp0 : 0 ≤ p) (hq1 : q ≤ 1)
    (hpq : p ≤ q) (ht0 : 0 ≤ t0) (ht1 : t0 ≤ 1) :
    0 ≤ hue2rgb p q t0 ∧ hue2rgb p q t0 ≤ 1 := by
  rw [hue2rgb_norm p q t0 ht0 ht1]
  split_ifs with h1 h2 h3
  · constructor <;> nlinarith
  · constructor <;> linarith
  · constructor <;> nlinarith
  · constructor <;> linarith

theorem hue2rgb_mem (p q t0 : ℚ) (hp0 : 0 ≤ p) (hq1 : q ≤ 1) (hpq : p ≤ q)
    (ht0 : -1 ≤ t0) (ht1 : t0 ≤ 2) :
    0 ≤ hue2rgb p q t0 ∧ hue2rgb p q t0 ≤ 1 := by
  rcases lt_or_le t0 0 with h | h
  · rw [hue2rgb_neg p q t0 ht0 h]
    exact hue2rgb_mem_aux p q (t0 + 1) hp0 hq1 hpq (by linarith) (by linarith)
  · rcases le_or_lt t0 1 with h2 | h2
    · exact hue2rgb_mem_aux p q t0 hp0 hq1 hpq h h2
    · rw [hue2rgb_gt p q t0 h2 ht1]
      exact hue2rgb_mem_aux p q (t0 - 1) hp0 hq1 hpq (by linarith) (by linarith)

theorem jsRound_toNat_le (x : ℚ) (n : ℕ) (hx : x ≤ (n : ℚ)) :
    (jsRound x).toNat ≤ n := by
  have h1 : jsRound x ≤ (n : ℤ) := by
    calc jsRound x ≤ jsRound (n : ℚ) := jsRound_le_of_le hx
    _ = (n : ℤ) := jsRound_natCast n
  omega

theorem hslToRgb_le (c : HSL) (hh0 : 0 ≤ c.h) (hh1 : c.h ≤ 1) (hs0 : 0 ≤ c.s)
    (hs1 : c.s ≤ 1) (hl0 : 0 ≤ c.l) (hl1 : c.l ≤ 1) :
    (hslToRgb c).r ≤ 255 ∧ (hslToRgb c).g ≤ 255 ∧ (hslToRgb c).b ≤ 255 := by
  obtain ⟨h, s, l⟩ := c
  simp only at hh0 hh1 hs0 hs1 hl0 hl1
  unfold hslToRgb
  dsimp only
  by_cases hsz : s = 0
  · rw [if_pos hsz]
    have : l * 255 ≤ (255 : ℚ) := by nlinarith
    exact ⟨jsRound_toNat_le _ _ this, jsRound_toNat_le _ _ this,
      jsRound_toNat_le _ _ this⟩
  · rw [if_neg hsz]
    obtain ⟨hp0, hpq, hq1⟩ := qp_bounds s l hs0 hs1 hl0 hl1
    set q := (if l < 1 / 2 then l * (1 + s) else l + s - l * s) with hqdef
    refine ⟨?_, ?_, ?_⟩
    · apply jsRound_toNat_le
      have hm := hue2rgb_mem (2 * l - q) q (h + 1 / 3) hp0 hq1 hpq
        (by linarith) (by linarith)
      push_cast
      nlinarith [hm.1, hm.2]
    · apply jsRound_toNat_le
      have hm := hue2rgb_mem (2 * l - q) q h hp0 hq1 hpq
        (by linarith) (by linarith)
      push_cast
      nlinarith [hm.1, hm.2]
    · apply jsRound_toNat_le
      have hm := hue2rgb_mem (2 * l - q) q (h - 1 / 3) hp0 hq1 hpq
        (by linarith) (by linarith)
      push_cast
      nlinarith [hm.1, hm.2]

theorem rgbToHsl_mem (c : RGB) (hr : c.r ≤ 255) (hg : c.g ≤ 255)
    (hb : c.b ≤ 255) :
    0 ≤ (rgbToHsl c).h ∧ (rgbToHsl c).h ≤ 1 ∧
    0 ≤ (rgbToHsl c).s ∧ (rgbToHsl c).s ≤ 1 ∧
    0 ≤ (rgbToHsl c).l ∧ (rgbToHsl c).l ≤ 1 := by
  obtain ⟨r, g, b⟩ := c
  simp only at hr hg hb
  unfold rgbToHsl
  dsimp only
  set x : ℚ := (r : ℚ) / 255 with hxdef
  set y : ℚ := (g : ℚ) / 255 with hydef
  set z : ℚ := (b : ℚ) / 255 with hzdef
  have hx0 : 0 ≤ x := by positivity
  have hy0 : 0 ≤ y := by positivity
  have hz0 : 0 ≤ z := by positivity
  have hx1 : x ≤ 1 := by
    rw [hxdef, div_le_one (by norm_num)]
    exact_mod_cast hr
  have hy1 : y ≤ 1 := by
    rw [hydef, div_le_one (by norm_num)]
    exact_mod_cast hg
  have hz1 : z ≤ 1 := by
    rw [hzdef, div_le_one (by norm_num)]
    exact_mod_cast hb
  clear_value x y z
  have hmxx : x ≤ max x (max y z) := le_max_left _ _
  have hmxy : y ≤ max x (max y z) := le_trans (le_max_left _ _) (le_max_right _ _)
  have hmxz : z ≤ max x (max y z) := le_trans (le_max_right _ _) (le_max_right _ _)
  have hmnx : min x (min y z) ≤ x := min_le_left _ _
  have hmny : min x (min y z) ≤ y := le_trans (min_le_right _ _) (min_le_left _ _)
  have hmnz : min x (min y z) ≤ z := le_trans (min_le_right _ _) (min_le_right _ _)
  have hmn0 : 0 ≤ min x (min y z) := le_min hx0 (le_min hy0 hz0)
  have hmx1 : max x (max y z) ≤ 1 := max_le hx1 (max_le hy1 hz1)
  have hmnmx : min x (min y z) ≤ max x (max y z) := le_trans hmnx hmxx
  by_cases heq : max x (max y z) = min x (min y z)
  · rw [if_pos heq]
    dsimp only
    refine ⟨le_refl 0, by norm_num, le_refl 0, by norm_num, by linarith, by linarith⟩
  · rw [if_neg heq]
    dsimp only
    have hlt : min x (min y z) < max x (max y z) := lt_of_le_of_ne hmnmx (Ne.symm heq)
    have hd : (0 : ℚ) < max x (max y z) - min x (min y z) := by linarith
    have hmxpos : (0 : ℚ) < max x (max y z) := lt_of_le_of_lt hmn0 hlt
    refine ⟨?_, ?_, ?_, ?_, by linarith, by linarith⟩
    · -- hue lower bound
      apply div_nonneg _ (by norm_num)
      split_ifs with hc1 hyz hc2
      · have ha : (z - y) / (max x (max y z) - min x (min y z)) ≤ 1 := by
          rw [div_le_one hd]
          linarith
        have heqv : (y - z) / (max x (max y z) - min x (min y z)) =
            -((z - y) / (max x (max y z) - min x (min y z))) := by ring
        rw [heqv]
        linarith
      · have : 0 ≤ (y - z) / (max x (max y z) - min x (min y z)) :=
          div_nonneg (by linarith [not_lt.mp hyz]) (le_of_lt hd)
        linarith
      · have ha : (x - z) / (max x (max y z) - min x (min y z)) ≤ 1 := by
          rw [div_le_one hd]
          linarith
        have heqv : (z - x) / (max x (max y z) - min x (min y z)) =
            -((x - z) / (max x (max y z) - min x (min y z))) := by ring
        rw [heqv]
        linarith
      · have ha : (y - x) / (max x (max y z) - min x (min y z)) ≤ 1 := by
          rw [div_le_one hd]
          linarith
        have heqv : (x - y) / (max x (max y z) - min x (min y z)) =
            -((y - x) / (max x (max y z) - min x (min y z))) := by ring
        rw [heqv]
        linarith
    · -- hue upper bound
      rw [div_le_one (by norm_num : (0:ℚ) < 6)]
      split_ifs with hc1 hyz hc2
      · have h1 : (y - z) / (max x (max y z) - min x (min y z)) ≤ 0 :=
          div_nonpos_of_nonpos_of_nonneg (by linarith) (le_of_lt hd)
        linarith
      · have h1 : (y - z) / (max x (max y z) - min x (min y z)) ≤ 1 := by
          rw [div_le_one hd]
          linarith
        linarith
      · have h1 : (z - x) / (max x (max y z) - min x (min y z)) ≤ 1 := by
          rw [div_le_one hd]
          linarith
        linarith
      · have h1 : (x - y) / (max x (max y z) - min x (min y z)) ≤ 1 := by
          rw [div_le_one hd]
          linarith
        linarith
    · -- saturation lower bound
      split_ifs with hl
      · have h2 : (0 : ℚ) < 2 - max x (max y z) - min x (min y z) := by linarith
        exact le_of_lt (div_pos hd h2)
      · have h2 : (0 : ℚ) < max x (max y z) + min x (min y z) := by linarith
        exact le_of_lt (div_pos hd h2)
    · -- saturation upper bound
      split_ifs with hl
      · have h2 : (0 : ℚ) < 2 - max x (max y z) - min x (min y z) := by linarith
        rw [div_le_one h2]
        linarith
      · have h2 : (0 : ℚ) < max x (max y z) + min x (min y z) := by linarith
        rw [div_le_one h2]
        linarith

/-! ### String-level round-trip corollaries -/

theorem hexToRgb_hslToHex (c : HSL) (hh0 : 0 ≤ c.h) (hh1 : c.h ≤ 1)
    (hs0 : 0 ≤ c.s) (hs1 : c.s ≤ 1) (hl0 : 0 ≤ c.l) (hl1 : c.l ≤ 1) :
    hexToRgb (hslToHex c) = hslToRgb c := by
  obtain ⟨hr, hg, hb⟩ := hslToRgb_le c hh0 hh1 hs0 hs1 hl0 hl1
  unfold hslToHex
  exact hexToRgb_rgbToHex (hslToRgb c) hr hg hb

theorem hslToHex_hexToHsl_of_range (c : HSL) (hh0 : 0 ≤ c.h) (hh1 : c.h ≤ 1)
    (hs0 : 0 ≤ c.s) (hs1 : c.s ≤ 1) (hl0 : 0 ≤ c.l) (hl1 : c.l ≤ 1) :
    hslToHex (hexToHsl (hslToHex c)) = hslToHex c := by
  obtain ⟨hr, hg, hb⟩ := hslToRgb_le c hh0 hh1 hs0 hs1 hl0 hl1
  unfold hexToHsl
  rw [hexToRgb_hslToHex c hh0 hh1 hs0 hs1 hl0 hl1]
  show hslToHex (rgbToHsl (hslToRgb c)) = hslToHex c
  unfold hslToHex
  rw [hslToRgb_rgbToHsl (hslToRgb c) hr hg hb]

theorem hexToHsl_mem (s : List Char) :
    0 ≤ (hexToHsl s).h ∧ (hexToHsl s).h ≤ 1 ∧
    0 ≤ (hexToHsl s).s ∧ (hexToHsl s).s ≤ 1 ∧
    0 ≤ (hexToHsl s).l ∧ (hexToHsl s).l ≤ 1 := by
  obtain ⟨hr, hg, hb⟩ := hexToRgb_le s
  exact rgbToHsl_mem (hexToRgb s) hr hg hb

theorem hslToHex_hexToHsl (s : List Char) :
    hslToHex (hexToHsl s) = rgbToHex (hexToRgb s) := by
  obtain ⟨hr, hg, hb⟩ := hexToRgb_le s
  unfold hexToHsl hslToHex
  rw [hslToRgb_rgbToHsl (hexToRgb s) hr hg hb]

theorem hexToRgb_canonize (s : List Char) :
    hexToRgb (hslToHex (hexToHsl s)) = hexToRgb s := by
  obtain ⟨hr, hg, hb⟩ := hexToRgb_le s
  rw [hslToHex_hexToHsl]
  exact hexToRgb_rgbToHex (hexToRgb s) hr hg hb

theorem hslToHex_ne_nil (c : HSL) : hslToHex c ≠ [] := by
  unfold hslToHex rgbToHex
  simp

theorem getLuminance_canonize (pw : ℚ → ℚ) (s : List Char) (hs : s ≠ []) :
    getLuminance pw (hslToHex (hexToHsl s)) = getLuminance pw s := by
  rw [getLuminance_eq_some pw s hs,
    getLuminance_eq_some pw _ (hslToHex_ne_nil (hexToHsl s)), hexToRgb_canonize]

/-! ### Monotonicity of the encoded color in the lightness channel -/

theorem q_mono (s l1 l2 : ℚ) (hs0 : 0 ≤ s) (hs1 : s ≤ 1) (h12 : l1 ≤ l2) :
    (if l1 < 1 / 2 then l1 * (1 + s) else l1 + s - l1 * s) ≤
      (if l2 < 1 / 2 then l2 * (1 + s) else l2 + s - l2 * s) := by
  split_ifs with h1 h2 h2
  · nlinarith
  · nlinarith [mul_nonneg (sub_nonneg.mpr h12) (sub_nonneg.mpr hs1),
      mul_nonneg hs0 (by linarith : (0 : ℚ) ≤ 1 - 2 * l1)]
  · linarith
  · nlinarith [mul_nonneg (sub_nonneg.mpr h12) (sub_nonneg.mpr hs1)]

theorem p_mono (s l1 l2 : ℚ) (hs0 : 0 ≤ s) (hs1 : s ≤ 1) (h12 : l1 ≤ l2) :
    2 * l1 - (if l1 < 1 / 2 then l1 * (1 + s) else l1 + s - l1 * s) ≤
      2 * l2 - (if l2 < 1 / 2 then l2 * (1 + s) else l2 + s - l2 * s) := by
  split_ifs with h1 h2 h2
  · nlinarith [mul_nonneg (sub_nonneg.mpr h12) (sub_nonneg.mpr hs1)]
  · nlinarith [mul_nonneg (sub_nonneg.mpr h12) (sub_nonneg.mpr hs1),
      mul_nonneg hs0 (by linarith : (0 : ℚ) ≤ 2 * l2 - 1)]
  · linarith
  · nlinarith [mul_nonneg (sub_nonneg.mpr h12) hs0]

theorem hue2rgb_mono_aux (p1 q1 p2 q2 t0 : ℚ) (hp : p1 ≤ p2) (hq : q1 ≤ q2)
    (ht0 : 0 ≤ t0) (ht1 : t0 ≤ 1) : hue2rgb p1 q1 t0 ≤ hue2rgb p2 q2 t0 := by
  rw [hue2rgb_norm p1 q1 t0 ht0 ht1, hue2rgb_norm p2 q2 t0 ht0 ht1]
  split_ifs with h1 h2 h3
  · nlinarith [mul_nonneg (sub_nonneg.mpr hp) (by linarith : (0 : ℚ) ≤ 1 - 6 * t0),
      mul_nonneg (sub_nonneg.mpr hq) (by linarith : (0 : ℚ) ≤ 6 * t0)]
  · exact hq
  · nlinarith [mul_nonneg (sub_nonneg.mpr hp)
        (by linarith : (0 : ℚ) ≤ 1 - (2 / 3 - t0) * 6),
      mul_nonneg (sub_nonneg.mpr hq) (by linarith : (0 : ℚ) ≤ (2 / 3 - t0) * 6)]
  · exact hp

theorem hue2rgb_mono (p1 q1 p2 q2 t0 : ℚ) (hp : p1 ≤ p2) (hq : q1 ≤ q2)
    (ht0 : -1 ≤ t0) (ht1 : t0 ≤ 2) : hue2rgb p1 q1 t0 ≤ hue2rgb p2 q2 t0 := by
  rcases lt_or_le t0 0 with h | h
  · rw [hue2rgb_neg p1 q1 t0 ht0 h, hue2rgb_neg p2 q2 t0 ht0 h]
    exact hue2rgb_mono_aux p1 q1 p2 q2 (t0 + 1) hp hq (by linarith) (by linarith)
  · rcases le_or_lt t0 1 with h2 | h2
    · exact hue2rgb_mono_aux p1 q1 p2 q2 t0 hp hq h h2
    · rw [hue2rgb_gt p1 q1 t0 h2 ht1, hue2rgb_gt p2 q2 t0 h2 ht1]
      exact hue2rgb_mono_aux p1 q1 p2 q2 (t0 - 1) hp hq (by linarith) (by linarith)

theorem jsRound_toNat_mono {x y : ℚ} (h : x ≤ y) :
    (jsRound x).toNat ≤ (jsRound y).toNat := by
  have := jsRound_le_of_le h
  omega

theorem hslToRgb_mono (h s l1 l2 : ℚ) (hh0 : 0 ≤ h) (hh1 : h ≤ 1)
    (hs0 : 0 ≤ s) (hs1 : s ≤ 1) (h12 : l1 ≤ l2) :
    (hslToRgb ⟨h, s, l1⟩).r ≤ (hslToRgb ⟨h, s, l2⟩).r ∧
    (hslToRgb ⟨h, s, l1⟩).g ≤ (hslToRgb ⟨h, s, l2⟩).g ∧
    (hslToRgb ⟨h, s, l1⟩).b ≤ (hslToRgb ⟨h, s, l2⟩).b := by
  unfold hslToRgb
  dsimp only
  by_cases hsz : s = 0
  · rw [if_pos hsz, if_pos hsz]
    dsimp only
    have : l1 * 255 ≤ l2 * 255 := by linarith
    exact ⟨jsRound_toNat_mono this, jsRound_toNat_mono this, jsRound_toNat_mono this⟩
  · rw [if_neg hsz, if_neg hsz]
    dsimp only
    have hqm := q_mono s l1 l2 hs0 hs1 h12
    have hpm := p_mono s l1 l2 hs0 hs1 h12
    refine ⟨?_, ?_, ?_⟩
    · apply jsRound_toNat_mono
      have := hue2rgb_mono _ _ _ _ (h + 1 / 3) hpm hqm (by linarith) (by linarith)
      linarith
    · apply jsRound_toNat_mono
      have := hue2rgb_mono _ _ _ _ h hpm hqm (by linarith) (by linarith)
      linarith
    · apply jsRound_toNat_mono
      have := hue2rgb_mono _ _ _ _ (h - 1 / 3) hpm hqm (by linarith) (by linarith)
      linarith

theorem hslRgb_enc_mono (h s l1 l2 : ℚ) (hh0 : 0 ≤ h) (hh1 : h ≤ 1)
    (hs0 : 0 ≤ s) (hs1 : s ≤ 1) (h12 : l1 ≤ l2) :
    (hslToRgb ⟨h, s, l1⟩).r * 65536 + (hslToRgb ⟨h, s, l1⟩).g * 256 +
      (hslToRgb ⟨h, s, l1⟩).b ≤
    (hslToRgb ⟨h, s, l2⟩).r * 65536 + (hslToRgb ⟨h, s, l2⟩).g * 256 +
      (hslToRgb ⟨h, s, l2⟩).b := by
  obtain ⟨h1, h2, h3⟩ := hslToRgb_mono h s l1 l2 hh0 hh1 hs0 hs1 h12
  omega

theorem hslToHex_eq_of_rgb_eq {c1 c2 : HSL} (h : hslToRgb c1 = hslToRgb c2) :
    hslToHex c1 = hslToHex c2 := by
  unfold hslToHex
  rw [h]

theorem hslRgb_enc_lt_of_ne (h s l1 l2 : ℚ) (hh0 : 0 ≤ h) (hh1 : h ≤ 1)
    (hs0 : 0 ≤ s) (hs1 : s ≤ 1) (h12 : l1 ≤ l2)
    (hne : hslToHex ⟨h, s, l1⟩ ≠ hslToHex ⟨h, s, l2⟩) :
    (hslToRgb ⟨h, s, l1⟩).r * 65536 + (hslToRgb ⟨h, s, l1⟩).g * 256 +
      (hslToRgb ⟨h, s, l1⟩).b <
    (hslToRgb ⟨h, s, l2⟩).r * 65536 + (hslToRgb ⟨h, s, l2⟩).g * 256 +
      (hslToRgb ⟨h, s, l2⟩).b := by
  obtain ⟨m1, m2, m3⟩ := hslToRgb_mono h s l1 l2 hh0 hh1 hs0 hs1 h12
  have hrgbne : hslToRgb ⟨h, s, l1⟩ ≠ hslToRgb ⟨h, s, l2⟩ :=
    fun he => hne (hslToHex_eq_of_rgb_eq he)
  rcases Nat.lt_or_ge ((hslToRgb ⟨h, s, l1⟩).r * 65536 + (hslToRgb ⟨h, s, l1⟩).g * 256 +
      (hslToRgb ⟨h, s, l1⟩).b)
      ((hslToRgb ⟨h, s, l2⟩).r * 65536 + (hslToRgb ⟨h, s, l2⟩).g * 256 +
      (hslToRgb ⟨h, s, l2⟩).b) with hlt | hge
  · exact hlt
  · exfalso
    apply hrgbne
    have e1 : (hslToRgb ⟨h, s, l1⟩).r = (hslToRgb ⟨h, s, l2⟩).r := by omega
    have e2 : (hslToRgb ⟨h, s, l1⟩).g = (hslToRgb ⟨h, s, l2⟩).g := by omega
    have e3 : (hslToRgb ⟨h, s, l1⟩).b = (hslToRgb ⟨h, s, l2⟩).b := by omega
    have : hslToRgb ⟨h, s, l1⟩ = RGB.mk (hslToRgb ⟨h, s, l2⟩).r
        (hslToRgb ⟨h, s, l2⟩).g (hslToRgb ⟨h, s, l2⟩).b := by
      rw [← e1, ← e2, ← e3]
    rw [this]

/-! ### Termination of the binary-search loop -/

theorem bscRun_of_cond_false (hs : ℚ × ℚ) (fixedHex : List Char)
    (cf : List Char → List Char → Bool → Option Bool) (large : Bool)
    (dir : LightDir) (fuel : ℕ) (st : BscState) (h : bscCond st = false) :
    bscRun hs fixedHex cf large dir fuel st = st := by
  rw [bscRun]
  split_ifs with h1 h2
  · rfl
  · rw [h] at h2
    exact absurd h2 (by simp)
  · rfl

theorem bscRun_reaches_fixpoint (h s : ℚ) (fixedHex : List Char)
    (cf : List Char → List Char → Bool → Option Bool) (large : Bool)
    (dir : LightDir) (hh0 : 0 ≤ h) (hh1 : h ≤ 1) (hs0 : 0 ≤ s) (hs1 : s ≤ 1) :
    ∀ fuel : ℕ, ∀ st : BscState, 0 ≤ st.mn → st.mn ≤ st.mx → st.mx ≤ 1 →
      st.minColor = hslToHex ⟨h, s, st.mn⟩ →
      st.maxColor = hslToHex ⟨h, s, st.mx⟩ →
      ((hslToRgb ⟨h, s, st.mx⟩).r * 65536 + (hslToRgb ⟨h, s, st.mx⟩).g * 256 +
          (hslToRgb ⟨h, s, st.mx⟩).b) -
        ((hslToRgb ⟨h, s, st.mn⟩).r * 65536 + (hslToRgb ⟨h, s, st.mn⟩).g * 256 +
          (hslToRgb ⟨h, s, st.mn⟩).b) + 2 ≤ fuel →
      bscCond (bscRun (h, s) fixedHex cf large dir fuel st) = false := by
  intro fuel
  induction fuel using Nat.strong_induction_on with
  | _ fuel ih =>
    intro st h0 hmn h1 hmin hmax hfuel
    rw [bscRun]
    rw [if_neg (by omega : ¬fuel = 0)]
    cases hcond : bscCond st with
    | false =>
      rw [if_neg (by simp)]
      exact hcond
    | true =>
      rw [if_pos rfl]
      have hadj1 : st.mn ≤ (st.mn + st.mx) / 2 := by linarith
      have hadj2 : (st.mn + st.mx) / 2 ≤ st.mx := by linarith
      cases dir with
      | lighten =>
        cases hp : jsTruthy (cf (hslToHex ⟨h, s, (st.mn + st.mx) / 2⟩) fixedHex large) with
        | false =>
          have hstep : bscStep (h, s) fixedHex cf large .lighten st =
              { st with prevMin := some st.minColor
                        prevMax := some st.maxColor
                        mn := (st.mn + st.mx) / 2
                        minColor := hslToHex ⟨h, s, (st.mn + st.mx) / 2⟩ } := by
            unfold bscStep
            dsimp only
            rw [hp]
            rfl
          rw [hstep]
          by_cases hch : hslToHex ⟨h, s, (st.mn + st.mx) / 2⟩ = st.minColor
          · have hcf : bscCond
                { st with prevMin := some st.minColor
                          prevMax := some st.maxColor
                          mn := (st.mn + st.mx) / 2
                          minColor := hslToHex ⟨h, s, (st.mn + st.mx) / 2⟩ } = false := by
              simp [bscCond, hch]
            rw [bscRun_of_cond_false _ _ _ _ _ _ _ hcf]
            exact hcf
          · have hne : hslToHex ⟨h, s, st.mn⟩ ≠ hslToHex ⟨h, s, (st.mn + st.mx) / 2⟩ := by
              rw [hmin] at hch
              exact fun he => hch he.symm
            have hstrict := hslRgb_enc_lt_of_ne h s st.mn ((st.mn + st.mx) / 2)
              hh0 hh1 hs0 hs1 hadj1 hne
            have hup := hslRgb_enc_mono h s ((st.mn + st.mx) / 2) st.mx
              hh0 hh1 hs0 hs1 hadj2
            exact ih (fuel - 1) (by omega) _
              (show (0:ℚ) ≤ (st.mn + st.mx) / 2 by linarith)
              (show (st.mn + st.mx) / 2 ≤ st.mx from hadj2)
              h1 rfl hmax
              (show ((hslToRgb ⟨h, s, st.mx⟩).r * 65536 + (hslToRgb ⟨h, s, st.mx⟩).g * 256 +
                  (hslToRgb ⟨h, s, st.mx⟩).b) -
                ((hslToRgb ⟨h, s, (st.mn + st.mx) / 2⟩).r * 65536 +
                  (hslToRgb ⟨h, s, (st.mn + st.mx) / 2⟩).g * 256 +
                  (hslToRgb ⟨h, s, (st.mn + st.mx) / 2⟩).b) + 2 ≤ fuel - 1 by omega)
        | true =>
          have hstep : bscStep (h, s) fixedHex cf large .lighten st =
              { st with prevMin := some st.minColor
                        prevMax := some st.maxColor
                        mx := (st.mn + st.mx) / 2
                        maxColor := hslToHex ⟨h, s, (st.mn + st.mx) / 2⟩ } := by
            unfold bscStep
            dsimp only
            rw [hp]
            rfl
          rw [hstep]
          by_cases hch : hslToHex ⟨h, s, (st.mn + st.mx) / 2⟩ = st.maxColor
          · have hcf : bscCond
                { st with prevMin := some st.minColor
                          prevMax := some st.maxColor
                          mx := (st.mn + st.mx) / 2
                          maxColor := hslToHex ⟨h, s, (st.mn + st.mx) / 2⟩ } = false := by
              simp [bscCond, hch]
            rw [bscRun_of_cond_false _ _ _ _ _ _ _ hcf]
            exact hcf
          · have hne : hslToHex ⟨h, s, (st.mn + st.mx) / 2⟩ ≠ hslToHex ⟨h, s, st.mx⟩ := by
              rw [hmax] at hch
              exact hch
            have hstrict := hslRgb_enc_lt_of_ne h s ((st.mn + st.mx) / 2) st.mx
              hh0 hh1 hs0 hs1 hadj2 hne
            have hlow := hslRgb_enc_mono h s st.mn ((st.mn + st.mx) / 2)
              hh0 hh1 hs0 hs1 hadj1
            exact ih (fuel - 1) (by omega) _
              h0
              (show st.mn ≤ (st.mn + st.mx) / 2 from hadj1)
              (show (st.mn + st.mx) / 2 ≤ 1 by linarith)
              hmin rfl
              (show ((hslToRgb ⟨h, s, (st.mn + st.mx) / 2⟩).r * 65536 +
                  (hslToRgb ⟨h, s, (st.mn + st.mx) / 2⟩).g * 256 +
                  (hslToRgb ⟨h, s, (st.mn + st.mx) / 2⟩).b) -
                ((hslToRgb ⟨h, s, st.mn⟩).r * 65536 + (hslToRgb ⟨h, s, st.mn⟩).g * 256 +
                  (hslToRgb ⟨h, s, st.mn⟩).b) + 2 ≤ fuel - 1 by omega)
      | darken =>
        cases hp : jsTruthy (cf (hslToHex ⟨h, s, (st.mn + st.mx) / 2⟩) fixedHex large) with
        | false =>
          have hstep : bscStep (h, s) fixedHex cf large .darken st =
              { st with prevMin := some st.minColor
                        prevMax := some st.maxColor
                        mx := (st.mn + st.mx) / 2
                        maxColor := hslToHex ⟨h, s, (st.mn + st.mx) / 2⟩ } := by
            unfold bscStep
            dsimp only
            rw [hp]
            rfl
          rw [hstep]
          by_cases hch : hslToHex ⟨h, s, (st.mn + st.mx) / 2⟩ = st.maxColor
          · have hcf : bscCond
                { st with prevMin := some st.minColor
                          prevMax := some st.maxColor
                          mx := (st.mn + st.mx) / 2
                          maxColor := hslToHex ⟨h, s, (st.mn + st.mx) / 2⟩ } = false := by
              simp [bscCond, hch]
            rw [bscRun_of_cond_false _ _ _ _ _ _ _ hcf]
            exact hcf
          · have hne : hslToHex ⟨h, s, (st.mn + st.mx) / 2⟩ ≠ hslToHex ⟨h, s, st.mx⟩ := by
              rw [hmax] at hch
              exact hch
            have hstrict := hslRgb_enc_lt_of_ne h s ((st.mn + st.mx) / 2) st.mx
              hh0 hh1 hs0 hs1 hadj2 hne
            have hlow := hslRgb_enc_mono h s st.mn ((st.mn + st.mx) / 2)
              hh0 hh1 hs0 hs1 hadj1
            exact ih (fuel - 1) (by omega) _
              h0
              (show st.mn ≤ (st.mn + st.mx) / 2 from hadj1)
              (show (st.mn + st.mx) / 2 ≤ 1 by linarith)
              hmin rfl
              (show ((hslToRgb ⟨h, s, (st.mn + st.mx) / 2⟩).r * 65536 +
                  (hslToRgb ⟨h, s, (st.mn + st.mx) / 2⟩).g * 256 +
                  (hslToRgb ⟨h, s, (st.mn + st.mx) / 2⟩).b) -
                ((hslToRgb ⟨h, s, st.mn⟩).r * 65536 + (hslToRgb ⟨h, s, st.mn⟩).g * 256 +
                  (hslToRgb ⟨h, s, st.mn⟩).b) + 2 ≤ fuel - 1 by omega)
        | true =>
          have hstep : bscStep (h, s) fixedHex cf large .darken st =
              { st with prevMin := some st.minColor
                        prevMax := some st.maxColor
                        mn := (st.mn + st.mx) / 2
                        minColor := hslToHex ⟨h, s, (st.mn + st.mx) / 2⟩ } := by
            unfold bscStep
            dsimp only
            rw [hp]
            rfl
          rw [hstep]
          by_cases hch : hslToHex ⟨h, s, (st.mn + st.mx) / 2⟩ = st.minColor
          · have hcf : bscCond
                { st with prevMin := some st.minColor
                          prevMax := some st.maxColor
                          mn := (st.mn + st.mx) / 2
                          minColor := hslToHex ⟨h, s, (st.mn + st.mx) / 2⟩ } = false := by
              simp [bscCond, hch]
            rw [bscRun_of_cond_false _ _ _ _ _ _ _ hcf]
            exact hcf
          · have hne : hslToHex ⟨h, s, st.mn⟩ ≠ hslToHex ⟨h, s, (st.mn + st.mx) / 2⟩ := by
              rw [hmin] at hch
              exact fun he => hch he.symm
            have hstrict := hslRgb_enc_lt_of_ne h s st.mn ((st.mn + st.mx) / 2)
              hh0 hh1 hs0 hs1 hadj1 hne
            have hup := hslRgb_enc_mono h s ((st.mn + st.mx) / 2) st.mx
              hh0 hh1 hs0 hs1 hadj2
            exact ih (fuel - 1) (by omega) _
              (show (0:ℚ) ≤ (st.mn + st.mx) / 2 by linarith)
              (show (st.mn + st.mx) / 2 ≤ st.mx from hadj2)
              h1 rfl hmax
              (show ((hslToRgb ⟨h, s, st.mx⟩).r * 65536 + (hslToRgb ⟨h, s, st.mx⟩).g * 256 +
                  (hslToRgb ⟨h, s, st.mx⟩).b) -
                ((hslToRgb ⟨h, s, (st.mn + st.mx) / 2⟩).r * 65536 +
                  (hslToRgb ⟨h, s, (st.mn + st.mx) / 2⟩).g * 256 +
                  (hslToRgb ⟨h, s, (st.mn + st.mx) / 2⟩).b) + 2 ≤ fuel - 1 by omega)

/-- C3: for every HSL input (channels in range), either direction, any
compliance predicate and large flag, the `binarySearchContrast` loop reaches
its fixed point (the `while` condition is false) within `bscFuel` iterations
starting from the initial bounds the source sets up; the bisection on the
8-bit encoded boundary colors therefore terminates and
`binarySearchContrast` and the suggestion functions are total. -/
theorem claim3_search_terminates (change : HSL)
    (cf : List Char → List Char → Bool → Option Bool) (large : Bool)
    (dir : LightDir) (fixedHex : List Char)
    (hh0 : 0 ≤ change.h) (hh1 : change.h ≤ 1)
    (hs0 : 0 ≤ change.s) (hs1 : change.s ≤ 1)
    (hl0 : 0 ≤ change.l) (hl1 : change.l ≤ 1) :
    bscCond (bscRun (change.h, change.s) fixedHex cf large dir bscFuel
      ⟨match dir with | .lighten => change.l | .darken => 0,
       match dir with | .lighten => 1 | .darken => change.l,
       hslToHex ⟨change.h, change.s,
         match dir with | .lighten => change.l | .darken => 0⟩,
       hslToHex ⟨change.h, change.s,
         match dir with | .lighten => 1 | .darken => change.l⟩,
       none, none⟩) = false := by
  obtain ⟨h, s, l⟩ := change
  simp only at hh0 hh1 hs0 hs1 hl0 hl1
  cases dir with
  | lighten =>
    have hb := hslToRgb_le ⟨h, s, 1⟩ hh0 hh1 hs0 hs1 (by norm_num) (by norm_num)
    exact bscRun_reaches_fixpoint h s fixedHex cf large .lighten hh0 hh1 hs0 hs1
      bscFuel ⟨l, 1, hslToHex ⟨h, s, l⟩, hslToHex ⟨h, s, 1⟩, none, none⟩
      hl0 hl1 le_rfl rfl rfl
      (by
        obtain ⟨hr, hg, hbb⟩ := hb
        show (hslToRgb ⟨h, s, 1⟩).r * 65536 + (hslToRgb ⟨h, s, 1⟩).g * 256 +
            (hslToRgb ⟨h, s, 1⟩).b -
          ((hslToRgb ⟨h, s, l⟩).r * 65536 + (hslToRgb ⟨h, s, l⟩).g * 256 +
            (hslToRgb ⟨h, s, l⟩).b) + 2 ≤ bscFuel
        have : bscFuel = 16777218 := rfl
        omega)
  | darken =>
    have hb := hslToRgb_le ⟨h, s, l⟩ hh0 hh1 hs0 hs1 hl0 hl1
    exact bscRun_reaches_fixpoint h s fixedHex cf large .darken hh0 hh1 hs0 hs1
      bscFuel ⟨0, l, hslToHex ⟨h, s, 0⟩, hslToHex ⟨h, s, l⟩, none, none⟩
      le_rfl hl0 hl1 rfl rfl
      (by
        obtain ⟨hr, hg, hbb⟩ := hb
        show (hslToRgb ⟨h, s, l⟩).r * 65536 + (hslToRgb ⟨h, s, l⟩).g * 256 +
            (hslToRgb ⟨h, s, l⟩).b -
          ((hslToRgb ⟨h, s, 0⟩).r * 65536 + (hslToRgb ⟨h, s, 0⟩).g * 256 +
            (hslToRgb ⟨h, s, 0⟩).b) + 2 ≤ bscFuel
        have : bscFuel = 16777218 := rfl
        omega)

/-- Witness for C3 at a concrete input. -/
theorem claim3_witness :
    bscCond (bscRun ((0 : ℚ), (0 : ℚ)) [] (fun _ _ _ => some true) false .darken
      bscFuel ⟨0, 0, hslToHex ⟨0, 0, 0⟩, hslToHex ⟨0, 0, 0⟩, none, none⟩) = false :=
  claim3_search_terminates ⟨0, 0, 0⟩ (fun _ _ _ => some true) false .darken []
    le_rfl zero_le_one le_rfl zero_le_one le_rfl zero_le_one

theorem bscRun_inv (h s : ℚ) (fixedHex : List Char)
    (cf : List Char → List Char → Bool → Option Bool) (large : Bool)
    (dir : LightDir) :
    ∀ fuel : ℕ, ∀ st : BscState, BscInv h s st →
      jsTruthy (cf (bscTracked dir st) fixedHex large) = true →
      BscInv h s (bscRun (h, s) fixedHex cf large dir fuel st) ∧
      jsTruthy (cf (bscTracked dir (bscRun (h, s) fixedHex cf large dir fuel st))
        fixedHex large) = true := by
  intro fuel
  induction fuel using Nat.strong_induction_on with
  | _ fuel ih =>
    intro st hinv htr
    rw [bscRun]
    by_cases hf : fuel = 0
    · rw [if_pos hf]
      exact ⟨hinv, htr⟩
    · rw [if_neg hf]
      cases hcond : bscCond st with
      | false =>
        rw [if_neg (by simp)]
        exact ⟨hinv, htr⟩
      | true =>
        rw [if_pos rfl]
        obtain ⟨h0, hmn, h1, hmin, hmax⟩ := hinv
        have hadj1 : st.mn ≤ (st.mn + st.mx) / 2 := by linarith
        have hadj2 : (st.mn + st.mx) / 2 ≤ st.mx := by linarith
        cases dir with
        | lighten =>
          cases hp : jsTruthy (cf (hslToHex ⟨h, s, (st.mn + st.mx) / 2⟩)
              fixedHex large) with
          | false =>
            have hstep : bscStep (h, s) fixedHex cf large .lighten st =
                { st with prevMin := some st.minColor
                          prevMax := some st.maxColor
                          mn := (st.mn + st.mx) / 2
                          minColor := hslToHex ⟨h, s, (st.mn + st.mx) / 2⟩ } := by
              unfold bscStep
              dsimp only
              rw [hp]
              rfl
            rw [hstep]
            exact ih (fuel - 1) (by omega) _
              ⟨show (0:ℚ) ≤ (st.mn + st.mx) / 2 by linarith, hadj2, h1, rfl, hmax⟩
              htr
          | true =>
            have hstep : bscStep (h, s) fixedHex cf large .lighten st =
                { st with prevMin := some st.minColor
                          prevMax := some st.maxColor
                          mx := (st.mn + st.mx) / 2
                          maxColor := hslToHex ⟨h, s, (st.mn + st.mx) / 2⟩ } := by
              unfold bscStep
              dsimp only
              rw [hp]
              rfl
            rw [hstep]
            exact ih (fuel - 1) (by omega) _
              ⟨h0, hadj1, show (st.mn + st.mx) / 2 ≤ 1 by linarith, hmin, rfl⟩
              hp
        | darken =>
          cases hp : jsTruthy (cf (hslToHex ⟨h, s, (st.mn + st.mx) / 2⟩)
              fixedHex large) with
          | false =>
            have hstep : bscStep (h, s) fixedHex cf large .darken st =
                { st with prevMin := some st.minColor
                          prevMax := some st.maxColor
                          mx := (st.mn + st.mx) / 2
                          maxColor := hslToHex ⟨h, s, (st.mn + st.mx) / 2⟩ } := by
              unfold bscStep
              dsimp only
              rw [hp]
              rfl
            rw [hstep]
            exact ih (fuel - 1) (by omega) _
              ⟨h0, hadj1, show (st.mn + st.mx) / 2 ≤ 1 by linarith, hmin, rfl⟩
              htr
          | true =>
            have hstep : bscStep (h, s) fixedHex cf large .darken st =
                { st with prevMin := some st.minColor
                          prevMax := some st.maxColor
                          mn := (st.mn + st.mx) / 2
                          minColor := hslToHex ⟨h, s, (st.mn + st.mx) / 2⟩ } := by
              unfold bscStep
              dsimp only
              rw [hp]
              rfl
            rw [hstep]
            exact ih (fuel - 1) (by omega) _
              ⟨show (0:ℚ) ≤ (st.mn + st.mx) / 2 by linarith, hadj2, h1, rfl, hmax⟩
              hp

theorem bscTracked_lighten (st : BscState) : bscTracked .lighten st = st.maxColor :=
  rfl

theorem bscTracked_darken (st : BscState) : bscTracked .darken st = st.minColor :=
  rfl

theorem bsc_some_shape (change fixed : HSL) (dir : LightDir)
    (cf : List Char → List Char → Bool → Option Bool) (large : Bool)
    (hh0 : 0 ≤ change.h) (hh1 : change.h ≤ 1)
    (hs0 : 0 ≤ change.s) (hs1 : change.s ≤ 1)
    (hl0 : 0 ≤ change.l) (hl1 : change.l ≤ 1) :
    ∀ X, binarySearchContrast change fixed dir cf large = some X →
      ∃ l', 0 ≤ l' ∧ l' ≤ 1 ∧
        X = hexToHsl (hslToHex ⟨change.h, change.s, l'⟩) ∧
        jsTruthy (cf (hslToHex ⟨change.h, change.s, l'⟩) (hslToHex fixed) large) =
          true := by
  obtain ⟨h, s, l⟩ := change
  simp only at hh0 hh1 hs0 hs1 hl0 hl1
  intro X hX
  cases dir with
  | lighten =>
    have hunf : binarySearchContrast ⟨h, s, l⟩ fixed .lighten cf large =
        (if !jsTruthy (cf (hslToHex ⟨h, s, 1⟩) (hslToHex fixed) large) then none
         else some (hexToHsl (bscTracked .lighten (bscRun (h, s) (hslToHex fixed)
           cf large .lighten bscFuel ⟨l, 1, hslToHex ⟨h, s, l⟩, hslToHex ⟨h, s, 1⟩,
             none, none⟩)))) := rfl
    rw [hunf, bscTracked_lighten] at hX
    by_cases hg : jsTruthy (cf (hslToHex ⟨h, s, 1⟩) (hslToHex fixed) large) = true
    · rw [hg] at hX
      simp only [Bool.not_true, Bool.false_eq_true, if_false] at hX
      obtain ⟨⟨f0, fmn, f1, fminC, fmaxC⟩, ftr⟩ :=
        bscRun_inv h s (hslToHex fixed) cf large .lighten bscFuel
          ⟨l, 1, hslToHex ⟨h, s, l⟩, hslToHex ⟨h, s, 1⟩, none, none⟩
          ⟨hl0, hl1, le_refl 1, rfl, rfl⟩ hg
      refine ⟨(bscRun (h, s) (hslToHex fixed) cf large .lighten bscFuel
          ⟨l, 1, hslToHex ⟨h, s, l⟩, hslToHex ⟨h, s, 1⟩, none, none⟩).mx,
        le_trans f0 fmn, f1, ?_, ?_⟩
      · rw [← fmaxC]
        exact (Option.some_inj.mp hX).symm
      · rw [bscTracked_lighten] at ftr
        rw [← fmaxC]
        exact ftr
    · rw [Bool.not_eq_true] at hg
      rw [hg] at hX
      simp at hX
  | darken =>
    have hunf : binarySearchContrast ⟨h, s, l⟩ fixed .darken cf large =
        (if !jsTruthy (cf (hslToHex ⟨h, s, 0⟩) (hslToHex fixed) large) then none
         else some (hexToHsl (bscTracked .darken (bscRun (h, s) (hslToHex fixed)
           cf large .darken bscFuel ⟨0, l, hslToHex ⟨h, s, 0⟩, hslToHex ⟨h, s, l⟩,
             none, none⟩)))) := rfl
    rw [hunf, bscTracked_darken] at hX
    by_cases hg : jsTruthy (cf (hslToHex ⟨h, s, 0⟩) (hslToHex fixed) large) = true
    · rw [hg] at hX
      simp only [Bool.not_true, Bool.false_eq_true, if_false] at hX
      obtain ⟨⟨f0, fmn, f1, fminC, fmaxC⟩, ftr⟩ :=
        bscRun_inv h s (hslToHex fixed) cf large .darken bscFuel
          ⟨0, l, hslToHex ⟨h, s, 0⟩, hslToHex ⟨h, s, l⟩, none, none⟩
          ⟨le_refl 0, hl0, hl1, rfl, rfl⟩ hg
      refine ⟨(bscRun (h, s) (hslToHex fixed) cf large .darken bscFuel
          ⟨0, l, hslToHex ⟨h, s, 0⟩, hslToHex ⟨h, s, l⟩, none, none⟩).mn,
        f0, le_trans fmn f1, ?_, ?_⟩
      · rw [← fminC]
        exact (Option.some_inj.mp hX).symm
      · rw [bscTracked_darken] at ftr
        rw [← fminC]
        exact ftr
    · rw [Bool.not_eq_true] at hg
      rw [hg] at hX
      simp at hX

theorem suggestVariant_shape (A B : List Char)
    (cf : List Char → List Char → Bool → Option Bool) (large : Bool)
    (hA : CanonHexColor A) :
    ∀ C, suggestColorVariant A B cf large = some C → C ≠ A →
      ∃ l', 0 ≤ l' ∧ l' ≤ 1 ∧
        C = hslToHex ⟨(hexToHsl A).h, (hexToHsl A).s, l'⟩ ∧
        l' ≠ (hexToHsl A).l := by
  intro C hC hne
  obtain ⟨hh0, hh1, hs0, hs1, hl0A, hl1A⟩ := hexToHsl_mem A
  have key : ∀ (dir : LightDir) (X : HSL),
      binarySearchContrast (hexToHsl A) (hexToHsl B) dir cf large = some X →
      C = hslToHex X →
      ∃ l', 0 ≤ l' ∧ l' ≤ 1 ∧
        C = hslToHex ⟨(hexToHsl A).h, (hexToHsl A).s, l'⟩ ∧
        l' ≠ (hexToHsl A).l := by
    intro dir X hbsc hCe
    obtain ⟨l', h0, h1, hXeq, _⟩ :=
      bsc_some_shape (hexToHsl A) (hexToHsl B) dir cf large
        hh0 hh1 hs0 hs1 hl0A hl1A X hbsc
    have hcanon := hslToHex_hexToHsl_of_range
      ⟨(hexToHsl A).h, (hexToHsl A).s, l'⟩ hh0 hh1 hs0 hs1 h0 h1
    refine ⟨l', h0, h1, ?_, ?_⟩
    · rw [hCe, hXeq, hcanon]
    · intro heq
      apply hne
      rw [hCe, hXeq, hcanon, heq]
      have heta : (⟨(hexToHsl A).h, (hexToHsl A).s, (hexToHsl A).l⟩ : HSL) =
          hexToHsl A := rfl
      rw [heta, hslToHex_hexToHsl, rgbToHex_hexToRgb A hA]
  have hunf : suggestColorVariant A B cf large =
      (if jsTruthy (cf A B large) then some A
       else
        match binarySearchContrast (hexToHsl A) (hexToHsl B) .darken cf large,
              binarySearchContrast (hexToHsl A) (hexToHsl B) .lighten cf large with
        | some darker, some lighter =>
          some (hslToHex
            (if |(hexToHsl A).l - darker.l| < |(hexToHsl A).l - lighter.l|
             then darker else lighter))
        | none, some lighter => some (hslToHex lighter)
        | some darker, none => some (hslToHex darker)
        | none, none => none) := rfl
  rw [hunf] at hC
  by_cases he : jsTruthy (cf A B large) = true
  · rw [if_pos he] at hC
    exact absurd (Option.some_inj.mp hC).symm hne
  · rw [if_neg he] at hC
    rcases hd : binarySearchContrast (hexToHsl A) (hexToHsl B) .darken cf large
      with _ | d <;>
      rcases hl : binarySearchContrast (hexToHsl A) (hexToHsl B) .lighten cf large
        with _ | li <;>
      rw [hd, hl] at hC
    · exact absurd hC (by simp)
    · exact key .lighten li hl (Option.some_inj.mp hC).symm
    · exact key .darken d hd (Option.some_inj.mp hC).symm
    · have hC' : some (hslToHex
          (if |(hexToHsl A).l - d.l| < |(hexToHsl A).l - li.l|
           then d else li)) = some C := hC
      by_cases hcmp : |(hexToHsl A).l - d.l| < |(hexToHsl A).l - li.l|
      · rw [if_pos hcmp] at hC'
        exact key .darken d hd (Option.some_inj.mp hC').symm
      · rw [if_neg hcmp] at hC'
        exact key .lighten li hl (Option.some_inj.mp hC').symm

/-- C6: whenever `suggestAAColorVariant` or `suggestAAAColorVariant` returns a
non-null color different from the input `A` (here `A` in canonical `#rrggbb`
form), that color is the hex encoding of an HSL value whose hue and
saturation are exactly those of `hexToHsl A`; only the lightness channel
differs from the original. -/
theorem claim6_variant_only_lightness (pw : ℚ → ℚ) (A B : List Char)
    (large : Bool) (hA : CanonHexColor A) :
    (∀ C, suggestAAColorVariant pw A B large = some C → C ≠ A →
      ∃ l', 0 ≤ l' ∧ l' ≤ 1 ∧
        C = hslToHex ⟨(hexToHsl A).h, (hexToHsl A).s, l'⟩ ∧
        l' ≠ (hexToHsl A).l) ∧
    (∀ C, suggestAAAColorVariant pw A B large = some C → C ≠ A →
      ∃ l', 0 ≤ l' ∧ l' ≤ 1 ∧
        C = hslToHex ⟨(hexToHsl A).h, (hexToHsl A).s, l'⟩ ∧
        l' ≠ (hexToHsl A).l) :=
  ⟨suggestVariant_shape A B (isAAContrast pw) large hA,
   suggestVariant_shape A B (isAAAContrast pw) large hA⟩

theorem bscRun_step (hs : ℚ × ℚ) (fixedHex : List Char)
    (cf : List Char → List Char → Bool → Option Bool) (large : Bool)
    (dir : LightDir) (fuel : ℕ) (st : BscState) (hf : fuel ≠ 0)
    (hc : bscCond st = true) :
    bscRun hs fixedHex cf large dir fuel st =
      bscRun hs fixedHex cf large dir (fuel - 1)
        (bscStep hs fixedHex cf large dir st) := by
  rw [bscRun, if_neg hf, if_pos hc]

theorem hexToRgb_c6A : hexToRgb ("#010101".data) = ⟨1, 1, 1⟩ := by decide

theorem hexToRgb_c6B : hexToRgb ("#434343".data) = ⟨67, 67, 67⟩ := by decide

theorem lum_c6A : getLuminance (fun x => x) ("#010101".data) =
    some (5 / 16473) := by
  rw [getLuminance_eq_some _ _ (by decide), hexToRgb_c6A]
  simp only [gammaMap]
  norm_num

theorem lum_c6B : getLuminance ( fun x => x) ("#434343".data) =
    some (3241 / 10761) := by
  rw [getLuminance_eq_some _ _ (by decide), hexToRgb_c6B]
  simp only [gammaMap]
  norm_num

theorem lum_c6White : getLuminance (fun x => x) ("#ffffff".data) = some 1 := by
  rw [getLuminance_eq_some _ _ (by decide), hexToRgb_white]
  simp only [gammaMap]
  norm_num

theorem aaa_c6_AB : isAAAContrast (fun x => x) ("#010101".data) ("#434343".data)
    false = some false := by
  unfold isAAAContrast isContrasting
  rw [getContrast_some_some, lum_c6A, lum_c6B]
  norm_num [jsRound]

theorem aaa_c6_black : isAAAContrast (fun x => x) ("#000000".data)
    ("#434343".data) false = some true := by
  unfold isAAAContrast isContrasting
  rw [getContrast_some_some, getLuminance_black, lum_c6B]
  norm_num [jsRound]

theorem aaa_c6_white : isAAAContrast (fun x => x) ("#ffffff".data)
    ("#434343".data) false = some false := by
  unfold isAAAContrast isContrasting
  rw [getContrast_some_some, lum_c6White, lum_c6B]
  norm_num [jsRound]

theorem hexToHsl_c6A : hexToHsl ("#010101".data) = ⟨0, 0, 1 / 255⟩ := by
  unfold hexToHsl
  rw [hexToRgb_c6A]
  unfold rgbToHsl
  norm_num

theorem hexToHsl_c6B : hexToHsl ("#434343".data) = ⟨0, 0, 67 / 255⟩ := by
  unfold hexToHsl
  rw [hexToRgb_c6B]
  unfold rgbToHsl
  norm_num

theorem hexToHsl_c6black : hexToHsl ("#000000".data) = ⟨0, 0, 0⟩ := by
  unfold hexToHsl
  rw [hexToRgb_black]
  unfold rgbToHsl
  norm_num

theorem hslToHex_c6B : hslToHex ⟨0, 0, 67 / 255⟩ = "#434343".data := by
  have hrgb : hslToRgb ⟨0, 0, 67 / 255⟩ = ⟨67, 67, 67⟩ := by
    unfold hslToRgb
    norm_num [jsRound]
    try rfl
  unfold hslToHex
  rw [hrgb]
  decide

theorem hslToHex_c6A : hslToHex ⟨0, 0, 1 / 255⟩ = "#010101".data := by
  have hrgb : hslToRgb ⟨0, 0, 1 / 255⟩ = ⟨1, 1, 1⟩ := by
    unfold hslToRgb
    norm_num [jsRound]
    try rfl
  unfold hslToHex
  rw [hrgb]
  decide

theorem hslToHex_c6mid : hslToHex ⟨0, 0, 1 / 510⟩ = "#010101".data := by
  have hrgb : hslToRgb ⟨0, 0, 1 / 510⟩ = ⟨1, 1, 1⟩ := by
    unfold hslToRgb
    norm_num [jsRound]
    try rfl
  unfold hslToHex
  rw [hrgb]
  decide

theorem hslToHex_c6black : hslToHex ⟨0, 0, 0⟩ = "#000000".data := by
  have hrgb : hslToRgb ⟨0, 0, 0⟩ = ⟨0, 0, 0⟩ := by
    unfold hslToRgb
    norm_num [jsRound]
    try rfl
  unfold hslToHex
  rw [hrgb]
  decide

theorem hslToHex_c6white : hslToHex ⟨0, 0, 1⟩ = "#ffffff".data := by
  have hrgb : hslToRgb ⟨0, 0, 1⟩ = ⟨255, 255, 255⟩ := by
    unfold hslToRgb
    norm_num [jsRound]
    try rfl
  unfold hslToHex
  rw [hrgb]
  decide

theorem bsc_c6_darken :
    binarySearchContrast ⟨0, 0, 1 / 255⟩ ⟨0, 0, 67 / 255⟩ .darken
      (isAAAContrast (fun x => x)) false = some ⟨0, 0, 0⟩ := by
  have hunf : binarySearchContrast ⟨0, 0, 1 / 255⟩ ⟨0, 0, 67 / 255⟩ .darken
      (isAAAContrast (fun x => x)) false =
      (if !jsTruthy (isAAAContrast (fun x => x) (hslToHex ⟨0, 0, 0⟩)
          (hslToHex ⟨0, 0, 67 / 255⟩) false) then none
       else some (hexToHsl (bscTracked .darken (bscRun ((0 : ℚ), (0 : ℚ))
         (hslToHex ⟨0, 0, 67 / 255⟩) (isAAAContrast (fun x => x)) false .darken
         bscFuel ⟨0, 1 / 255, hslToHex ⟨0, 0, 0⟩, hslToHex ⟨0, 0, 1 / 255⟩,
           none, none⟩)))) := rfl
  rw [hunf, hslToHex_c6black, hslToHex_c6B, hslToHex_c6A, aaa_c6_black]
  simp only [jsTruthy, Bool.not_true, Bool.false_eq_true, if_false]
  have hstep : bscStep ((0 : ℚ), (0 : ℚ)) ("#434343".data)
      (isAAAContrast (fun x => x)) false .darken
      ⟨0, 1 / 255, "#000000".data, "#010101".data, none, none⟩ =
      ⟨0, 1 / 510, "#000000".data, "#010101".data, some ("#000000".data),
        some ("#010101".data)⟩ := by
    unfold bscStep
    dsimp only
    rw [show ((0 : ℚ) + 1 / 255) / 2 = 1 / 510 by norm_num]
    rw [hslToHex_c6mid, aaa_c6_AB]
    simp [jsTruthy]
  have hrun : bscRun ((0 : ℚ), (0 : ℚ)) ("#434343".data)
      (isAAAContrast (fun x => x)) false .darken bscFuel
      ⟨0, 1 / 255, "#000000".data, "#010101".data, none, none⟩ =
      ⟨0, 1 / 510, "#000000".data, "#010101".data, some ("#000000".data),
        some ("#010101".data)⟩ := by
    rw [bscRun_step _ _ _ _ _ _ _ (by norm_num [bscFuel]) (by decide), hstep]
    exact bscRun_of_cond_false _ _ _ _ _ _ _ (by decide)
  rw [hrun, bscTracked_darken]
  show some (hexToHsl ("#000000".data)) = some (⟨0, 0, 0⟩ : HSL)
  rw [hexToHsl_c6black]

theorem bsc_c6_lighten :
    binarySearchContrast ⟨0, 0, 1 / 255⟩ ⟨0, 0, 67 / 255⟩ .lighten
      (isAAAContrast (fun x => x)) false = none := by
  have hunf : binarySearchContrast ⟨0, 0, 1 / 255⟩ ⟨0, 0, 67 / 255⟩ .lighten
      (isAAAContrast (fun x => x)) false =
      (if !jsTruthy (isAAAContrast (fun x => x) (hslToHex ⟨0, 0, 1⟩)
          (hslToHex ⟨0, 0, 67 / 255⟩) false) then none
       else some (hexToHsl (bscTracked .lighten (bscRun ((0 : ℚ), (0 : ℚ))
         (hslToHex ⟨0, 0, 67 / 255⟩) (isAAAContrast (fun x => x)) false .lighten
         bscFuel ⟨1 / 255, 1, hslToHex ⟨0, 0, 1 / 255⟩, hslToHex ⟨0, 0, 1⟩,
           none, none⟩)))) := rfl
  rw [hunf, hslToHex_c6white, hslToHex_c6B, aaa_c6_white]
  simp [jsTruthy]

theorem suggestAAA_c6 :
    suggestAAAColorVariant (fun x => x) ("#010101".data) ("#434343".data)
      false = some ("#000000".data) := by
  unfold suggestAAAColorVariant
  have hunf : suggestColorVariant ("#010101".data) ("#434343".data)
      (isAAAContrast (fun x => x)) false =
      (if jsTruthy (isAAAContrast (fun x => x) ("#010101".data)
          ("#434343".data) false) then some ("#010101".data)
       else
        match binarySearchContrast (hexToHsl ("#010101".data))
                (hexToHsl ("#434343".data)) .darken
                (isAAAContrast (fun x => x)) false,
              binarySearchContrast (hexToHsl ("#010101".data))
                (hexToHsl ("#434343".data)) .lighten
                (isAAAContrast (fun x => x)) false with
        | some darker, some lighter =>
          some (hslToHex
            (if |(hexToHsl ("#010101".data)).l - darker.l| <
                |(hexToHsl ("#010101".data)).l - lighter.l|
             then darker else lighter))
        | none, some lighter => some (hslToHex lighter)
        | some darker, none => some (hslToHex darker)
        | none, none => none) := rfl
  rw [hunf, aaa_c6_AB, if_neg (by simp [jsTruthy]), hexToHsl_c6A, hexToHsl_c6B,
    bsc_c6_darken, bsc_c6_lighten]
  show some (hslToHex ⟨0, 0, 0⟩) = some ("#000000".data)
  rw [hslToHex_c6black]

/-- Witness for C6 at a concrete input: `suggestAAAColorVariant` on
`("#010101", "#434343")` (no large text) returns `"#000000"`, a color
different from the input, and the claim yields a lightness `l'` with the
returned color equal to `hslToHex` at the input's hue and saturation. -/
theorem claim6_witness :
    suggestAAAColorVariant (fun x => x) ("#010101".data) ("#434343".data)
        false = some ("#000000".data) ∧
    ∃ l', 0 ≤ l' ∧ l' ≤ 1 ∧
      "#000000".data = hslToHex ⟨(hexToHsl ("#010101".data)).h,
        (hexToHsl ("#010101".data)).s, l'⟩ ∧
      l' ≠ (hexToHsl ("#010101".data)).l :=
  ⟨suggestAAA_c6,
   (claim6_variant_only_lightness (fun x => x) ("#010101".data)
       ("#434343".data) false
       ⟨['0', '1', '0', '1', '0', '1'], rfl, rfl, by
         intro c hc
         fin_cases hc
         · exact ⟨0, by decide⟩
         · exact ⟨1, by decide⟩
         · exact ⟨0, by decide⟩
         · exact ⟨1, by decide⟩
         · exact ⟨0, by decide⟩
         · exact ⟨1, by decide⟩⟩).2
     ("#000000".data) suggestAAA_c6 (by decide)⟩

/-! ### Compliance of the suggested variant (C1) -/

theorem gammaMap_grid_mono (pw : ℚ → ℚ) (hpwM : PwMono pw)
    (hpwJ : PwJunction pw) (a b : ℕ) (hab : a ≤ b) (hb : b ≤ 255) :
    gammaMap pw a ≤ gammaMap pw b := by
  unfold gammaMap
  dsimp only
  have habq : (a : ℚ) ≤ (b : ℚ) := by exact_mod_cast hab
  have hbq : (b : ℚ) ≤ 255 := by exact_mod_cast hb
  have haq : (0 : ℚ) ≤ (a : ℚ) := by positivity
  have hdiv : (a : ℚ) / 255 ≤ (b : ℚ) / 255 :=
    (div_le_div_right (by norm_num)).mpr habq
  have hb255 : (b : ℚ) / 255 ≤ 1 := by
    rw [div_le_one (by norm_num)]
    exact hbq
  by_cases hA : ((a : ℚ) / 255 ≤ 0.03928) <;>
    by_cases hB : ((b : ℚ) / 255 ≤ 0.03928)
  · rw [if_pos hA, if_pos hB]
    exact (div_le_div_right (by norm_num)).mpr hdiv
  · rw [if_pos hA, if_neg hB]
    have ha10 : (a : ℚ) / 255 ≤ 10 / 255 := by
      have ha10n : a ≤ 10 := by
        by_contra hcon
        push_neg at hcon
        have h11 : (11 : ℚ) ≤ (a : ℚ) := by exact_mod_cast hcon
        have : (11 : ℚ) / 255 ≤ (a : ℚ) / 255 :=
          (div_le_div_right (by norm_num)).mpr h11
        norm_num at hA this
        linarith
      have : (a : ℚ) ≤ 10 := by exact_mod_cast ha10n
      exact (div_le_div_right (by norm_num)).mpr this
    have hb11 : (11 : ℚ) / 255 ≤ (b : ℚ) / 255 := by
      have hb11n : 11 ≤ b := by
        by_contra hcon
        push_neg at hcon
        have : b ≤ 10 := by omega
        have h10 : (b : ℚ) ≤ 10 := by exact_mod_cast this
        apply hB
        have : (b : ℚ) / 255 ≤ 10 / 255 :=
          (div_le_div_right (by norm_num)).mpr h10
        norm_num at this ⊢
        linarith
      have : (11 : ℚ) ≤ (b : ℚ) := by exact_mod_cast hb11n
      exact (div_le_div_right (by norm_num)).mpr this
    have harg1 : ((11 : ℚ) / 255 + 0.055) / 1.055 ≤
        ((b : ℚ) / 255 + 0.055) / 1.055 :=
      (div_le_div_right (by norm_num)).mpr (by linarith)
    have harg2 : ((b : ℚ) / 255 + 0.055) / 1.055 ≤ 1 := by
      rw [div_le_one (by norm_num)]
      norm_num
      linarith
    have hj := hpwJ _ harg1 harg2
    have hstep : (a : ℚ) / 255 / 12.92 ≤ (10 : ℚ) / 255 / 12.92 :=
      (div_le_div_right (by norm_num)).mpr ha10
    linarith
  · exact absurd (le_trans hdiv hB) hA
  · rw [if_neg hA, if_neg hB]
    apply hpwM
    · positivity
    · exact (div_le_div_right (by norm_num)).mpr (by linarith)
    · rw [div_le_one (by norm_num)]
      norm_num
      linarith

theorem lum_hsl_mono (pw : ℚ → ℚ) (hpwM : PwMono pw) (hpwJ : PwJunction pw)
    (h s l1 l2 : ℚ) (hh0 : 0 ≤ h) (hh1 : h ≤ 1) (hs0 : 0 ≤ s) (hs1 : s ≤ 1)
    (hl0 : 0 ≤ l1) (h12 : l1 ≤ l2) (hl1 : l2 ≤ 1) :
    0.2126 * gammaMap pw (hslToRgb ⟨h, s, l1⟩).r +
      0.7152 * gammaMap pw (hslToRgb ⟨h, s, l1⟩).g +
      0.0722 * gammaMap pw (hslToRgb ⟨h, s, l1⟩).b ≤
    0.2126 * gammaMap pw (hslToRgb ⟨h, s, l2⟩).r +
      0.7152 * gammaMap pw (hslToRgb ⟨h, s, l2⟩).g +
      0.0722 * gammaMap pw (hslToRgb ⟨h, s, l2⟩).b := by
  obtain ⟨hr, hg, hb⟩ := hslToRgb_mono h s l1 l2 hh0 hh1 hs0 hs1 h12
  obtain ⟨hr2, hg2, hb2⟩ := hslToRgb_le ⟨h, s, l2⟩ hh0 hh1 hs0 hs1
    (le_trans hl0 h12) hl1
  have mr := gammaMap_grid_mono pw hpwM hpwJ _ _ hr hr2
  have mg := gammaMap_grid_mono pw hpwM hpwJ _ _ hg hg2
  have mb := gammaMap_grid_mono pw hpwM hpwJ _ _ hb hb2
  have w1 : (0.2126 : ℚ) * gammaMap pw (hslToRgb ⟨h, s, l1⟩).r ≤
      0.2126 * gammaMap pw (hslToRgb ⟨h, s, l2⟩).r :=
    mul_le_mul_of_nonneg_left mr (by norm_num)
  have w2 : (0.7152 : ℚ) * gammaMap pw (hslToRgb ⟨h, s, l1⟩).g ≤
      0.7152 * gammaMap pw (hslToRgb ⟨h, s, l2⟩).g :=
    mul_le_mul_of_nonneg_left mg (by norm_num)
  have w3 : (0.0722 : ℚ) * gammaMap pw (hslToRgb ⟨h, s, l1⟩).b ≤
      0.0722 * gammaMap pw (hslToRgb ⟨h, s, l2⟩).b :=
    mul_le_mul_of_nonneg_left mb (by norm_num)
  linarith

theorem ratio_quasiconvex (L0 L1 L2 LB : ℚ) (h0 : 0 ≤ L0) (h01 : L0 ≤ L1)
    (h12 : L1 ≤ L2) (hB : 0 ≤ LB) :
    (max L1 LB + 0.05) / (min L1 LB + 0.05) ≤
      max ((max L0 LB + 0.05) / (min L0 LB + 0.05))
          ((max L2 LB + 0.05) / (min L2 LB + 0.05)) := by
  have h1 : 0 ≤ L1 := le_trans h0 h01
  rcases le_total L1 LB with hc | hc
  · refine le_trans ?_ (le_max_left _ _)
    rw [max_eq_right hc, min_eq_left hc, max_eq_right (le_trans h01 hc),
      min_eq_left (le_trans h01 hc)]
    apply div_le_div_of_nonneg_left (by linarith) (by linarith) (by linarith)
  · refine le_trans ?_ (le_max_right _ _)
    rw [max_eq_left hc, min_eq_right hc, max_eq_left (le_trans hc h12),
      min_eq_right (le_trans hc h12)]
    exact (div_le_div_iff_of_pos_right (by linarith)).mpr (by linarith)

theorem getContrast_nonempty_some (pw : ℚ → ℚ) (s1 s2 : List Char)
    (h1 : s1 ≠ []) (h2 : s2 ≠ []) (precision : ℕ) :
    ∃ L1 L2, getLuminance pw s1 = some L1 ∧ getLuminance pw s2 = some L2 ∧
      getContrast pw (some s1) (some s2) precision =
        some ((jsRound ((max L1 L2 + 0.05) / (min L1 L2 + 0.05) *
          10 ^ precision) : ℚ) / 10 ^ precision) := by
  refine ⟨_, _, getLuminance_eq_some pw s1 h1, getLuminance_eq_some pw s2 h2, ?_⟩
  rw [getContrast_some_some, getLuminance_eq_some pw s1 h1,
    getLuminance_eq_some pw s2 h2]

theorem getContrast_le_21 (pw : ℚ → ℚ) (hpw : PwBounded pw)
    (s1 s2 : List Char) (c : ℚ)
    (hc : getContrast pw (some s1) (some s2) 3 = some c) : c ≤ 21 := by
  rw [getContrast_some_some] at hc
  rcases h1 : getLuminance pw s1 with _ | L1 <;> rw [h1] at hc
  · simp at hc
  rcases h2 : getLuminance pw s2 with _ | L2 <;> rw [h2] at hc
  · simp at hc
  have hL10 := getLuminance_nonneg pw hpw s1 L1 h1
  have hL20 := getLuminance_nonneg pw hpw s2 L2 h2
  have hL11 := getLuminance_le_one pw hpw s1 L1 h1
  have hL21 := getLuminance_le_one pw hpw s2 L2 h2
  have hratio : (max L1 L2 + 0.05) / (min L1 L2 + 0.05) ≤ 21 := by
    rw [div_le_iff₀ (by rcases le_total L1 L2 with hcm | hcm <;>
      [rw [min_eq_left hcm]; rw [min_eq_right hcm]] <;> linarith)]
    rcases le_total L1 L2 with hcm | hcm <;>
      [rw [max_eq_right hcm, min_eq_left hcm];
       rw [max_eq_left hcm, min_eq_right hcm]] <;> linarith
  have hjr : jsRound ((max L1 L2 + 0.05) / (min L1 L2 + 0.05) * 10 ^ 3) ≤
      21000 := by
    have h21 : (max L1 L2 + 0.05) / (min L1 L2 + 0.05) * 10 ^ 3 ≤ 21000 := by
      nlinarith [hratio]
    calc jsRound ((max L1 L2 + 0.05) / (min L1 L2 + 0.05) * 10 ^ 3) ≤
          jsRound 21000 := jsRound_le_of_le h21
      _ = 21000 := by norm_num [jsRound]
  have hcv : c = (jsRound ((max L1 L2 + 0.05) / (min L1 L2 + 0.05) * 10 ^ 3) : ℚ) /
      10 ^ 3 := (Option.some_inj.mp hc).symm
  rw [hcv]
  rw [div_le_iff₀ (by norm_num)]
  have : ((jsRound ((max L1 L2 + 0.05) / (min L1 L2 + 0.05) * 10 ^ 3) : ℤ) : ℚ) ≤
      ((21000 : ℤ) : ℚ) := by exact_mod_cast hjr
  calc ((jsRound ((max L1 L2 + 0.05) / (min L1 L2 + 0.05) * 10 ^ 3) : ℤ) : ℚ) ≤
      ((21000 : ℤ) : ℚ) := this
    _ = 21 * 10 ^ 3 := by norm_num

theorem jsTruthy_some_bool (b : Bool) : jsTruthy (some b) = b := by
  cases b <;> rfl

theorem jsTruthy_isContrasting_iff (pw : ℚ → ℚ) (hpw : PwBounded pw)
    (s1 s2 : List Char) (h1 : s1 ≠ []) (h2 : s2 ≠ []) (ratio : ℚ) :
    jsTruthy (isContrasting pw s1 s2 ratio) = true ↔
      ∃ c, getContrast pw (some s1) (some s2) 3 = some c ∧ ratio ≤ c := by
  obtain ⟨L1, L2, hL1, hL2, hc⟩ := getContrast_nonempty_some pw s1 s2 h1 h2 3
  have hge1 := getContrast_some_ge_one pw hpw s1 s2 3 _ hc
  have hne : ((jsRound ((max L1 L2 + 0.05) / (min L1 L2 + 0.05) * 10 ^ 3) : ℤ) : ℚ) /
      10 ^ 3 ≠ 0 := by linarith
  unfold isContrasting
  rw [hc]
  show jsTruthy (if ((jsRound ((max L1 L2 + 0.05) / (min L1 L2 + 0.05) * 10 ^ 3) : ℤ) : ℚ) /
      10 ^ 3 = 0 then none
    else some (decide (ratio ≤ ((jsRound ((max L1 L2 + 0.05) / (min L1 L2 + 0.05) * 10 ^ 3) : ℤ) : ℚ) /
      10 ^ 3))) = true ↔ _
  rw [if_neg hne, jsTruthy_some_bool, decide_eq_true_eq]
  constructor
  · intro hr
    exact ⟨_, rfl, hr⟩
  · rintro ⟨c', hc', hr⟩
    rw [Option.some_inj.mp hc']
    exact hr

theorem isContrasting_canonB (pw : ℚ → ℚ) (s B : List Char) (hB : B ≠ [])
    (ratio : ℚ) :
    isContrasting pw s (hslToHex (hexToHsl B)) ratio =
      isContrasting pw s B ratio := by
  unfold isContrasting
  rw [getContrast_some_some, getContrast_some_some,
    getLuminance_canonize pw B hB]

theorem compliant_at_extreme (pw : ℚ → ℚ) (hpw : PwBounded pw)
    (hpwM : PwMono pw) (hpwJ : PwJunction pw) (h s : ℚ)
    (hh0 : 0 ≤ h) (hh1 : h ≤ 1) (hs0 : 0 ≤ s) (hs1 : s ≤ 1)
    (B : List Char) (hB : B ≠ []) (ratio : ℚ) (l' : ℚ)
    (hl0 : 0 ≤ l') (hl1 : l' ≤ 1)
    (htr : jsTruthy (isContrasting pw (hslToHex ⟨h, s, l'⟩) B ratio) = true) :
    jsTruthy (isContrasting pw (hslToHex ⟨h, s, 0⟩) B ratio) = true ∨
    jsTruthy (isContrasting pw (hslToHex ⟨h, s, 1⟩) B ratio) = true := by
  have hvx : ∀ x : ℚ, 0 ≤ x → x ≤ 1 →
      getLuminance pw (hslToHex ⟨h, s, x⟩) =
        some (0.2126 * gammaMap pw (hslToRgb ⟨h, s, x⟩).r +
          0.7152 * gammaMap pw (hslToRgb ⟨h, s, x⟩).g +
          0.0722 * gammaMap pw (hslToRgb ⟨h, s, x⟩).b) := by
    intro x hx0 hx1
    rw [getLuminance_eq_some _ _ (hslToHex_ne_nil _),
      hexToRgb_hslToHex ⟨h, s, x⟩ hh0 hh1 hs0 hs1 hx0 hx1]
  obtain ⟨LB, hLB⟩ : ∃ LB, getLuminance pw B = some LB := by
    rcases hL : getLuminance pw B with _ | LB
    · rw [getLuminance_eq_some pw B hB] at hL
      exact absurd hL (by simp)
    · exact ⟨LB, rfl⟩
  have hLB0 : 0 ≤ LB := getLuminance_nonneg pw hpw B LB hLB
  set Y0 : ℚ := 0.2126 * gammaMap pw (hslToRgb ⟨h, s, 0⟩).r +
      0.7152 * gammaMap pw (hslToRgb ⟨h, s, 0⟩).g +
      0.0722 * gammaMap pw (hslToRgb ⟨h, s, 0⟩).b with hY0
  set Yp : ℚ := 0.2126 * gammaMap pw (hslToRgb ⟨h, s, l'⟩).r +
      0.7152 * gammaMap pw (hslToRgb ⟨h, s, l'⟩).g +
      0.0722 * gammaMap pw (hslToRgb ⟨h, s, l'⟩).b with hYp
  set Y1 : ℚ := 0.2126 * gammaMap pw (hslToRgb ⟨h, s, 1⟩).r +
      0.7152 * gammaMap pw (hslToRgb ⟨h, s, 1⟩).g +
      0.0722 * gammaMap pw (hslToRgb ⟨h, s, 1⟩).b with hY1
  clear_value Y0 Yp Y1
  have hcon0 : getContrast pw (some (hslToHex ⟨h, s, 0⟩)) (some B) 3 =
      some ((jsRound ((max Y0 LB + 0.05) / (min Y0 LB + 0.05) * 10 ^ 3) : ℚ) /
        10 ^ 3) := by
    rw [getContrast_some_some, hvx 0 le_rfl zero_le_one, hLB, hY0]
  have hconp : getContrast pw (some (hslToHex ⟨h, s, l'⟩)) (some B) 3 =
      some ((jsRound ((max Yp LB + 0.05) / (min Yp LB + 0.05) * 10 ^ 3) : ℚ) /
        10 ^ 3) := by
    rw [getContrast_some_some, hvx l' hl0 hl1, hLB, hYp]
  have hcon1 : getContrast pw (some (hslToHex ⟨h, s, 1⟩)) (some B) 3 =
      some ((jsRound ((max Y1 LB + 0.05) / (min Y1 LB + 0.05) * 10 ^ 3) : ℚ) /
        10 ^ 3) := by
    rw [getContrast_some_some, hvx 1 zero_le_one le_rfl, hLB, hY1]
  have hL00 : 0 ≤ Y0 :=
    getLuminance_nonneg pw hpw _ _
      (show getLuminance pw (hslToHex ⟨h, s, 0⟩) = some Y0 by
        rw [hY0]
        exact hvx 0 le_rfl zero_le_one)
  have hm1 : Y0 ≤ Yp := by
    rw [hY0, hYp]
    exact lum_hsl_mono pw hpwM hpwJ h s 0 l' hh0 hh1 hs0 hs1 le_rfl hl0 hl1
  have hm2 : Yp ≤ Y1 := by
    rw [hYp, hY1]
    exact lum_hsl_mono pw hpwM hpwJ h s l' 1 hh0 hh1 hs0 hs1 hl0 hl1 le_rfl
  have hq := ratio_quasiconvex Y0 Yp Y1 LB hL00 hm1 hm2 hLB0
  rw [jsTruthy_isContrasting_iff pw hpw _ _ (hslToHex_ne_nil _) hB] at htr
  obtain ⟨c', hc', hr'⟩ := htr
  rw [hconp] at hc'
  rw [← Option.some_inj.mp hc'] at hr'
  have hmono : Monotone jsRound := fun _ _ hxy => jsRound_le_of_le hxy
  have h1 : jsRound ((max Yp LB + 0.05) / (min Yp LB + 0.05) * 10 ^ 3) ≤
      max (jsRound ((max Y0 LB + 0.05) / (min Y0 LB + 0.05) * 10 ^ 3))
        (jsRound ((max Y1 LB + 0.05) / (min Y1 LB + 0.05) * 10 ^ 3)) := by
    have hstep := jsRound_le_of_le (mul_le_mul_of_nonneg_right hq
      (by norm_num : (0 : ℚ) ≤ 10 ^ 3))
    rw [max_mul_of_nonneg _ _ (by norm_num : (0 : ℚ) ≤ 10 ^ 3),
      hmono.map_max] at hstep
    exact hstep
  have hkey : ratio ≤
      max ((jsRound ((max Y0 LB + 0.05) / (min Y0 LB + 0.05) * 10 ^ 3) : ℚ) /
          10 ^ 3)
        ((jsRound ((max Y1 LB + 0.05) / (min Y1 LB + 0.05) * 10 ^ 3) : ℚ) /
          10 ^ 3) := by
    rcases le_max_iff.mp h1 with hj | hj
    · refine le_trans hr' (le_trans ?_ (le_max_left _ _))
      exact (div_le_div_iff_of_pos_right (by norm_num : (0 : ℚ) < 10 ^ 3)).mpr
        (by exact_mod_cast hj)
    · refine le_trans hr' (le_trans ?_ (le_max_right _ _))
      exact (div_le_div_iff_of_pos_right (by norm_num : (0 : ℚ) < 10 ^ 3)).mpr
        (by exact_mod_cast hj)
  rcases le_max_iff.mp hkey with hk | hk
  · left
    rw [jsTruthy_isContrasting_iff pw hpw _ _ (hslToHex_ne_nil _) hB]
    exact ⟨_, hcon0, hk⟩
  · right
    rw [jsTruthy_isContrasting_iff pw hpw _ _ (hslToHex_ne_nil _) hB]
    exact ⟨_, hcon1, hk⟩

theorem bsc_darken_guard (change fixed : HSL)
    (cf : List Char → List Char → Bool → Option Bool) (large : Bool) :
    (jsTruthy (cf (hslToHex ⟨change.h, change.s, 0⟩) (hslToHex fixed) large) =
        false →
      binarySearchContrast change fixed .darken cf large = none) ∧
    (jsTruthy (cf (hslToHex ⟨change.h, change.s, 0⟩) (hslToHex fixed) large) =
        true →
      ∃ X, binarySearchContrast change fixed .darken cf large = some X) := by
  obtain ⟨h, s, l⟩ := change
  have hunf : binarySearchContrast ⟨h, s, l⟩ fixed .darken cf large =
      (if !jsTruthy (cf (hslToHex ⟨h, s, 0⟩) (hslToHex fixed) large) then none
       else some (hexToHsl (bscTracked .darken (bscRun ((h : ℚ), (s : ℚ))
         (hslToHex fixed) cf large .darken bscFuel
         ⟨0, l, hslToHex ⟨h, s, 0⟩, hslToHex ⟨h, s, l⟩, none, none⟩)))) := rfl
  constructor
  · intro hg
    rw [hunf, hg]
    rfl
  · intro hg
    rw [hunf, hg]
    exact ⟨_, rfl⟩

theorem bsc_lighten_guard (change fixed : HSL)
    (cf : List Char → List Char → Bool → Option Bool) (large : Bool) :
    (jsTruthy (cf (hslToHex ⟨change.h, change.s, 1⟩) (hslToHex fixed) large) =
        false →
      binarySearchContrast change fixed .lighten cf large = none) ∧
    (jsTruthy (cf (hslToHex ⟨change.h, change.s, 1⟩) (hslToHex fixed) large) =
        true →
      ∃ X, binarySearchContrast change fixed .lighten cf large = some X) := by
  obtain ⟨h, s, l⟩ := change
  have hunf : binarySearchContrast ⟨h, s, l⟩ fixed .lighten cf large =
      (if !jsTruthy (cf (hslToHex ⟨h, s, 1⟩) (hslToHex fixed) large) then none
       else some (hexToHsl (bscTracked .lighten (bscRun ((h : ℚ), (s : ℚ))
         (hslToHex fixed) cf large .lighten bscFuel
         ⟨l, 1, hslToHex ⟨h, s, l⟩, hslToHex ⟨h, s, 1⟩, none, none⟩)))) := rfl
  constructor
  · intro hg
    rw [hunf, hg]
    rfl
  · intro hg
    rw [hunf, hg]
    exact ⟨_, rfl⟩

theorem suggest_early (A B : List Char)
    (cf : List Char → List Char → Bool → Option Bool) (large : Bool)
    (he : jsTruthy (cf A B large) = true) :
    suggestColorVariant A B cf large = some A := by
  simp only [suggestColorVariant]
  rw [if_pos he]

theorem suggest_some_compliant (A B : List Char)
    (cf : List Char → List Char → Bool → Option Bool) (large : Bool)
    (hne : jsTruthy (cf A B large) = false)
    (hguard : jsTruthy (cf (hslToHex ⟨(hexToHsl A).h, (hexToHsl A).s, 0⟩)
        (hslToHex (hexToHsl B)) large) = true ∨
      jsTruthy (cf (hslToHex ⟨(hexToHsl A).h, (hexToHsl A).s, 1⟩)
        (hslToHex (hexToHsl B)) large) = true) :
    ∃ C, suggestColorVariant A B cf large = some C ∧ C ≠ [] ∧
      jsTruthy (cf C (hslToHex (hexToHsl B)) large) = true := by
  obtain ⟨hh0, hh1, hs0, hs1, hl0A, hl1A⟩ := hexToHsl_mem A
  have key : ∀ (dir : LightDir) (X : HSL),
      binarySearchContrast (hexToHsl A) (hexToHsl B) dir cf large = some X →
      jsTruthy (cf (hslToHex X) (hslToHex (hexToHsl B)) large) = true := by
    intro dir X hbsc
    obtain ⟨l'', h0, h1, hXeq, htru⟩ :=
      bsc_some_shape (hexToHsl A) (hexToHsl B) dir cf large
        hh0 hh1 hs0 hs1 hl0A hl1A X hbsc
    have hcanon := hslToHex_hexToHsl_of_range
      ⟨(hexToHsl A).h, (hexToHsl A).s, l''⟩ hh0 hh1 hs0 hs1 h0 h1
    rw [hXeq, hcanon]
    exact htru
  have hunf : suggestColorVariant A B cf large =
      (if jsTruthy (cf A B large) then some A
       else
        match binarySearchContrast (hexToHsl A) (hexToHsl B) .darken cf large,
              binarySearchContrast (hexToHsl A) (hexToHsl B) .lighten cf large
          with
        | some darker, some lighter =>
          some (hslToHex
            (if |(hexToHsl A).l - darker.l| < |(hexToHsl A).l - lighter.l|
             then darker else lighter))
        | none, some lighter => some (hslToHex lighter)
        | some darker, none => some (hslToHex darker)
        | none, none => none) := rfl
  rcases hd : binarySearchContrast (hexToHsl A) (hexToHsl B) .darken cf large
    with _ | d <;>
    rcases hl : binarySearchContrast (hexToHsl A) (hexToHsl B) .lighten cf large
      with _ | li
  · rcases hguard with hg | hg
    · obtain ⟨X, hX⟩ := (bsc_darken_guard (hexToHsl A) (hexToHsl B) cf large).2 hg
      rw [hX] at hd
      exact absurd hd (by simp)
    · obtain ⟨X, hX⟩ :=
        (bsc_lighten_guard (hexToHsl A) (hexToHsl B) cf large).2 hg
      rw [hX] at hl
      exact absurd hl (by simp)
  · have hsome : suggestColorVariant A B cf large = some (hslToHex li) := by
      rw [hunf, if_neg (by simp [hne]), hd, hl]
    exact ⟨hslToHex li, hsome, hslToHex_ne_nil li, key .lighten li hl⟩
  · have hsome : suggestColorVariant A B cf large = some (hslToHex d) := by
      rw [hunf, if_neg (by simp [hne]), hd, hl]
    exact ⟨hslToHex d, hsome, hslToHex_ne_nil d, key .darken d hd⟩
  · by_cases hcmp : |(hexToHsl A).l - d.l| < |(hexToHsl A).l - li.l|
    · have hsome : suggestColorVariant A B cf large = some (hslToHex d) := by
        rw [hunf, if_neg (by simp [hne]), hd, hl]
        show some (hslToHex (if |(hexToHsl A).l - d.l| < |(hexToHsl A).l - li.l|
          then d else li)) = some (hslToHex d)
        rw [if_pos hcmp]
      exact ⟨hslToHex d, hsome, hslToHex_ne_nil d, key .darken d hd⟩
    · have hsome : suggestColorVariant A B cf large = some (hslToHex li) := by
        rw [hunf, if_neg (by simp [hne]), hd, hl]
        show some (hslToHex (if |(hexToHsl A).l - d.l| < |(hexToHsl A).l - li.l|
          then d else li)) = some (hslToHex li)
        rw [if_neg hcmp]
      exact ⟨hslToHex li, hsome, hslToHex_ne_nil li, key .lighten li hl⟩

theorem suggest_compliant_th (pw : ℚ → ℚ) (hpw : PwBounded pw)
    (hpwM : PwMono pw) (hpwJ : PwJunction pw) (A B : List Char)
    (hA : A ≠ []) (hB : B ≠ [])
    (cf : List Char → List Char → Bool → Option Bool) (large : Bool) (th : ℚ)
    (hcf : ∀ c1 c2, cf c1 c2 large = isContrasting pw c1 c2 th)
    (l' : ℚ) (hl0 : 0 ≤ l') (hl1 : l' ≤ 1)
    (hcomp : jsTruthy (isContrasting pw
      (hslToHex ⟨(hexToHsl A).h, (hexToHsl A).s, l'⟩) B th) = true) :
    ∃ C c, suggestColorVariant A B cf large = some C ∧
      getContrast pw (some C) (some B) 3 = some c ∧ th ≤ c ∧ c ≤ 21 := by
  obtain ⟨hh0, hh1, hs0, hs1, hl0A, hl1A⟩ := hexToHsl_mem A
  by_cases he : jsTruthy (cf A B large) = true
  · refine ⟨A, ?_⟩
    rw [hcf] at he
    obtain ⟨c, hc, hrc⟩ :=
      (jsTruthy_isContrasting_iff pw hpw A B hA hB th).mp he
    exact ⟨c, suggest_early A B cf large (by rw [hcf]; exact he), hc, hrc,
      getContrast_le_21 pw hpw A B c hc⟩
  · have hne : jsTruthy (cf A B large) = false := by
      cases hjt : jsTruthy (cf A B large)
      · rfl
      · exact absurd hjt he
    have hext := compliant_at_extreme pw hpw hpwM hpwJ
      (hexToHsl A).h (hexToHsl A).s hh0 hh1 hs0 hs1 B hB th l' hl0 hl1 hcomp
    have hguard : jsTruthy (cf (hslToHex ⟨(hexToHsl A).h, (hexToHsl A).s, 0⟩)
        (hslToHex (hexToHsl B)) large) = true ∨
        jsTruthy (cf (hslToHex ⟨(hexToHsl A).h, (hexToHsl A).s, 1⟩)
        (hslToHex (hexToHsl B)) large) = true := by
      rcases hext with hx | hx
      · left
        rw [hcf, isContrasting_canonB pw _ B hB th]
        exact hx
      · right
        rw [hcf, isContrasting_canonB pw _ B hB th]
        exact hx
    obtain ⟨C, hCsome, hCne, hCtru⟩ :=
      suggest_some_compliant A B cf large hne hguard
    rw [hcf, isContrasting_canonB pw C B hB th] at hCtru
    obtain ⟨c, hc, hrc⟩ :=
      (jsTruthy_isContrasting_iff pw hpw C B hCne hB th).mp hCtru
    exact ⟨C, c, hCsome, hc, hrc, getContrast_le_21 pw hpw C B c hc⟩

/-- C1: for any well-formed inputs for which a compliant lightness variant
exists (some `l'` in `[0, 1]` whose hex encoding at the input's hue and
saturation satisfies the compliance predicate against `B`),
`suggestAAColorVariant` returns a color `C` whose contrast ratio with `B` is
at least 4.5 (3.0 when `large`) and at most 21, and likewise
`suggestAAAColorVariant` with thresholds 7.0 / 4.5. `pw` is the power map
`x ^ 2.4` of the gamma correction, assumed bounded, monotone and above the
linear-segment junction, as the real function is. -/
theorem claim1_suggest_compliant (pw : ℚ → ℚ) (A B : List Char) (large : Bool)
    (hpw : PwBounded pw) (hpwM : PwMono pw) (hpwJ : PwJunction pw)
    (hA : A ≠ []) (hB : B ≠ []) :
    (∀ l', 0 ≤ l' → l' ≤ 1 →
      jsTruthy (isAAContrast pw
        (hslToHex ⟨(hexToHsl A).h, (hexToHsl A).s, l'⟩) B large) = true →
      ∃ C c, suggestAAColorVariant pw A B large = some C ∧
        getContrast pw (some C) (some B) 3 = some c ∧
        (if large then (3 : ℚ) else 4.5) ≤ c ∧ c ≤ 21) ∧
    (∀ l', 0 ≤ l' → l' ≤ 1 →
      jsTruthy (isAAAContrast pw
        (hslToHex ⟨(hexToHsl A).h, (hexToHsl A).s, l'⟩) B large) = true →
      ∃ C c, suggestAAAColorVariant pw A B large = some C ∧
        getContrast pw (some C) (some B) 3 = some c ∧
        (if large then (4.5 : ℚ) else 7) ≤ c ∧ c ≤ 21) := by
  constructor
  · intro l' hl0 hl1 hcomp
    exact suggest_compliant_th pw hpw hpwM hpwJ A B hA hB (isAAContrast pw)
      large (if large then 3 else 4.5) (fun c1 c2 => rfl) l' hl0 hl1 hcomp
  · intro l' hl0 hl1 hcomp
    exact suggest_compliant_th pw hpw hpwM hpwJ A B hA hB (isAAAContrast pw)
      large (if large then 4.5 else 7) (fun c1 c2 => rfl) l' hl0 hl1 hcomp

/-- Witness for C1 at a concrete input: a compliant lightness (`l' = 0`,
black on white) exists, and the suggested AA variant's contrast with `B`
lies in the required range. -/
theorem claim1_witness :
    ∃ C c, suggestAAColorVariant (fun x => x) ("#000000".data)
        ("#ffffff".data) false = some C ∧
      getContrast (fun x => x) (some C) (some ("#ffffff".data)) 3 = some c ∧
      (if false then (3 : ℚ) else 4.5) ≤ c ∧ c ≤ 21 := by
  have hcomp : jsTruthy (isAAContrast (fun x => x)
      (hslToHex ⟨(hexToHsl ("#000000".data)).h, (hexToHsl ("#000000".data)).s,
        0⟩) ("#ffffff".data) false) = true := by
    rw [hexToHsl_c6black]
    show jsTruthy (isAAContrast (fun x => x) (hslToHex ⟨0, 0, 0⟩)
      ("#ffffff".data) false) = true
    rw [hslToHex_c6black]
    unfold isAAContrast isContrasting
    rw [getContrast_some_some, getLuminance_black, lum_c6White]
    norm_num [jsRound, jsTruthy]
  exact (claim1_suggest_compliant (fun x => x) ("#000000".data)
    ("#ffffff".data) false
    (fun x hx0 hx1 => ⟨hx0, hx1⟩)
    (fun x y _ hxy _ => hxy)
    (fun x hx _ => by
      have hj : (10 : ℚ) / 255 / 12.92 ≤ (11 / 255 + 0.055) / 1.055 := by
        norm_num
      linarith)
    (by decide) (by decide)).1 0 le_rfl zero_le_one hcomp

/-! ### C10 witness: a concrete equal-distance tie -/

theorem hslToRgb_gray (l : ℚ) (v : ℕ) (hv : jsRound (l * 255) = (v : ℤ)) :
    hslToRgb ⟨0, 0, l⟩ = ⟨v, v, v⟩ := by
  unfold hslToRgb
  rw [if_pos rfl]
  dsimp only
  rw [hv]
  simp

theorem hslToHex_gray (l : ℚ) (v : ℕ) (hv : jsRound (l * 255) = (v : ℤ)) :
    hslToHex ⟨0, 0, l⟩ = rgbToHex ⟨v, v, v⟩ := by
  unfold hslToHex
  rw [hslToRgb_gray l v hv]
theorem hslToHex_g128 : hslToHex ⟨0, 0, (128 : ℚ) / 255⟩ = "#808080".data := by
  rw [hslToHex_gray _ 128 (by norm_num [jsRound])]
  decide

theorem hslToHex_g65 : hslToHex ⟨0, 0, (43 : ℚ) / 170⟩ = "#414141".data := by
  rw [hslToHex_gray _ 65 (by norm_num [jsRound])]
  decide

theorem hslToHex_g33 : hslToHex ⟨0, 0, (131 : ℚ) / 1020⟩ = "#212121".data := by
  rw [hslToHex_gray _ 33 (by norm_num [jsRound])]
  decide

theorem hslToHex_g17 : hslToHex ⟨0, 0, (9 : ℚ) / 136⟩ = "#111111".data := by
  rw [hslToHex_gray _ 17 (by norm_num [jsRound])]
  decide

theorem hslToHex_g9 : hslToHex ⟨0, 0, (143 : ℚ) / 4080⟩ = "#090909".data := by
  rw [hslToHex_gray _ 9 (by norm_num [jsRound])]
  decide

theorem hslToHex_g5 : hslToHex ⟨0, 0, (53 : ℚ) / 2720⟩ = "#050505".data := by
  rw [hslToHex_gray _ 5 (by norm_num [jsRound])]
  decide

theorem hslToHex_g3 : hslToHex ⟨0, 0, (191 : ℚ) / 16320⟩ = "#030303".data := by
  rw [hslToHex_gray _ 3 (by norm_num [jsRound])]
  decide

theorem hslToHex_g2 : hslToHex ⟨0, 0, (1 : ℚ) / 128⟩ = "#020202".data := by
  rw [hslToHex_gray _ 2 (by norm_num [jsRound])]
  decide

theorem hslToHex_g1 : hslToHex ⟨0, 0, (383 : ℚ) / 65280⟩ = "#010101".data := by
  rw [hslToHex_gray _ 1 (by norm_num [jsRound])]
  decide

theorem hexToHsl_g2 : hexToHsl ("#020202".data) = ⟨0, 0, 2 / 255⟩ := by
  unfold hexToHsl
  rw [show hexToRgb ("#020202".data) = ⟨2, 2, 2⟩ from by decide]
  unfold rgbToHsl
  norm_num
theorem c10_step1 : bscStep ((0 : ℚ), (0 : ℚ)) ("#434343".data)
    (fun c _ _ => some (decide (c ≠ "#010101".data))) false .lighten
    ⟨1 / 255, 1, "#010101".data, "#ffffff".data, none, none⟩ =
    ⟨1 / 255, 128 / 255, "#010101".data, "#808080".data, some ("#010101".data), some ("#ffffff".data)⟩ := by
  unfold bscStep
  dsimp only
  rw [show ((1 / 255 : ℚ) + 1) / 2 = 128 / 255 by norm_num]
  rw [hslToHex_g128]
  rw [show jsTruthy (some (decide (("#808080".data : List Char) ≠
    "#010101".data))) = true from by decide]
  simp

theorem c10_step2 : bscStep ((0 : ℚ), (0 : ℚ)) ("#434343".data)
    (fun c _ _ => some (decide (c ≠ "#010101".data))) false .lighten
    ⟨1 / 255, 128 / 255, "#010101".data, "#808080".data, some ("#010101".data), some ("#ffffff".data)⟩ =
    ⟨1 / 255, 43 / 170, "#010101".data, "#414141".data, some ("#010101".data), some ("#808080".data)⟩ := by
  unfold bscStep
  dsimp only
  rw [show ((1 / 255 : ℚ) + 128 / 255) / 2 = 43 / 170 by norm_num]
  rw [hslToHex_g65]
  rw [show jsTruthy (some (decide (("#414141".data : List Char) ≠
    "#010101".data))) = true from by decide]
  simp

theorem c10_step3 : bscStep ((0 : ℚ), (0 : ℚ)) ("#434343".data)
    (fun c _ _ => some (decide (c ≠ "#010101".data))) false .lighten
    ⟨1 / 255, 43 / 170, "#010101".data, "#414141".data, some ("#010101".data), some ("#808080".data)⟩ =
    ⟨1 / 255, 131 / 1020, "#010101".data, "#212121".data, some ("#010101".data), some ("#414141".data)⟩ := by
  unfold bscStep
  dsimp only
  rw [show ((1 / 255 : ℚ) + 43 / 170) / 2 = 131 / 1020 by norm_num]
  rw [hslToHex_g33]
  rw [show jsTruthy (some (decide (("#212121".data : List Char) ≠
    "#010101".data))) = true from by decide]
  simp

theorem c10_step4 : bscStep ((0 : ℚ), (0 : ℚ)) ("#434343".data)
    (fun c _ _ => some (decide (c ≠ "#010101".data))) false .lighten
    ⟨1 / 255, 131 / 1020, "#010101".data, "#212121".data, some ("#010101".data), some ("#414141".data)⟩ =
    ⟨1 / 255, 9 / 136, "#010101".data, "#111111".data, some ("#010101".data), some ("#212121".data)⟩ := by
  unfold bscStep
  dsimp only
  rw [show ((1 / 255 : ℚ) + 131 / 1020) / 2 = 9 / 136 by norm_num]
  rw [hslToHex_g17]
  rw [show jsTruthy (some (decide (("#111111".data : List Char) ≠
    "#010101".data))) = true from by decide]
  simp

theorem c10_step5 : bscStep ((0 : ℚ), (0 : ℚ)) ("#434343".data)
    (fun c _ _ => some (decide (c ≠ "#010101".data))) false .lighten
    ⟨1 / 255, 9 / 136, "#010101".data, "#111111".data, some ("#010101".data), some ("#212121".data)⟩ =
    ⟨1 / 255, 143 / 4080, "#010101".data, "#090909".data, some ("#010101".data), some ("#111111".data)⟩ := by
  unfold bscStep
  dsimp only
  rw [show ((1 / 255 : ℚ) + 9 / 136) / 2 = 143 / 4080 by norm_num]
  rw [hslToHex_g9]
  rw [show jsTruthy (some (decide (("#090909".data : List Char) ≠
    "#010101".data))) = true from by decide]
  simp

theorem c10_step6 : bscStep ((0 : ℚ), (0 : ℚ)) ("#434343".data)
    (fun c _ _ => some (decide (c ≠ "#010101".data))) false .lighten
    ⟨1 / 255, 143 / 4080, "#010101".data, "#090909".data, some ("#010101".data), some ("#111111".data)⟩ =
    ⟨1 / 255, 53 / 2720, "#010101".data, "#050505".data, some ("#010101".data), some ("#090909".data)⟩ := by
  unfold bscStep
  dsimp only
  rw [show ((1 / 255 : ℚ) + 143 / 4080) / 2 = 53 / 2720 by norm_num]
  rw [hslToHex_g5]
  rw [show jsTruthy (some (decide (("#050505".data : List Char) ≠
    "#010101".data))) = true from by decide]
  simp

theorem c10_step7 : bscStep ((0 : ℚ), (0 : ℚ)) ("#434343".data)
    (fun c _ _ => some (decide (c ≠ "#010101".data))) false .lighten
    ⟨1 / 255, 53 / 2720, "#010101".data, "#050505".data, some ("#010101".data), some ("#090909".data)⟩ =
    ⟨1 / 255, 191 / 16320, "#010101".data, "#030303".data, some ("#010101".data), some ("#050505".data)⟩ := by
  unfold bscStep
  dsimp only
  rw [show ((1 / 255 : ℚ) + 53 / 2720) / 2 = 191 / 16320 by norm_num]
  rw [hslToHex_g3]
  rw [show jsTruthy (some (decide (("#030303".data : List Char) ≠
    "#010101".data))) = true from by decide]
  simp

theorem c10_step8 : bscStep ((0 : ℚ), (0 : ℚ)) ("#434343".data)
    (fun c _ _ => some (decide (c ≠ "#010101".data))) false .lighten
    ⟨1 / 255, 191 / 16320, "#010101".data, "#030303".data, some ("#010101".data), some ("#050505".data)⟩ =
    ⟨1 / 255, 1 / 128, "#010101".data, "#020202".data, some ("#010101".data), some ("#030303".data)⟩ := by
  unfold bscStep
  dsimp only
  rw [show ((1 / 255 : ℚ) + 191 / 16320) / 2 = 1 / 128 by norm_num]
  rw [hslToHex_g2]
  rw [show jsTruthy (some (decide (("#020202".data : List Char) ≠
    "#010101".data))) = true from by decide]
  simp

theorem c10_step9 : bscStep ((0 : ℚ), (0 : ℚ)) ("#434343".data)
    (fun c _ _ => some (decide (c ≠ "#010101".data))) false .lighten
    ⟨1 / 255, 1 / 128, "#010101".data, "#020202".data, some ("#010101".data), some ("#030303".data)⟩ =
    ⟨383 / 65280, 1 / 128, "#010101".data, "#020202".data, some ("#010101".data), some ("#020202".data)⟩ := by
  unfold bscStep
  dsimp only
  rw [show ((1 / 255 : ℚ) + 1 / 128) / 2 = 383 / 65280 by norm_num]
  rw [hslToHex_g1]
  rw [show jsTruthy (some (decide (("#010101".data : List Char) ≠
    "#010101".data))) = false from by decide]
  simp

theorem c10_lighten_run : bscRun ((0 : ℚ), (0 : ℚ)) ("#434343".data)
    (fun c _ _ => some (decide (c ≠ "#010101".data))) false .lighten bscFuel
    ⟨1 / 255, 1, "#010101".data, "#ffffff".data, none, none⟩ =
    ⟨383 / 65280, 1 / 128, "#010101".data, "#020202".data,
      some ("#010101".data), some ("#020202".data)⟩ := by
  rw [bscRun_step _ _ _ _ _ _ _ (by norm_num [bscFuel]) (by decide), c10_step1]
  rw [bscRun_step _ _ _ _ _ _ _ (by norm_num [bscFuel]) (by decide), c10_step2]
  rw [bscRun_step _ _ _ _ _ _ _ (by norm_num [bscFuel]) (by decide), c10_step3]
  rw [bscRun_step _ _ _ _ _ _ _ (by norm_num [bscFuel]) (by decide), c10_step4]
  rw [bscRun_step _ _ _ _ _ _ _ (by norm_num [bscFuel]) (by decide), c10_step5]
  rw [bscRun_step _ _ _ _ _ _ _ (by norm_num [bscFuel]) (by decide), c10_step6]
  rw [bscRun_step _ _ _ _ _ _ _ (by norm_num [bscFuel]) (by decide), c10_step7]
  rw [bscRun_step _ _ _ _ _ _ _ (by norm_num [bscFuel]) (by decide), c10_step8]
  rw [bscRun_step _ _ _ _ _ _ _ (by norm_num [bscFuel]) (by decide), c10_step9]
  exact bscRun_of_cond_false _ _ _ _ _ _ _ (by decide)

theorem c10_darken_step : bscStep ((0 : ℚ), (0 : ℚ)) ("#434343".data)
    (fun c _ _ => some (decide (c ≠ "#010101".data))) false .darken
    ⟨0, 1 / 255, "#000000".data, "#010101".data, none, none⟩ =
    ⟨0, 1 / 510, "#000000".data, "#010101".data, some ("#000000".data),
      some ("#010101".data)⟩ := by
  unfold bscStep
  dsimp only
  rw [show ((0 : ℚ) + 1 / 255) / 2 = 1 / 510 by norm_num]
  rw [hslToHex_c6mid]
  rw [show jsTruthy (some (decide (("#010101".data : List Char) ≠
    "#010101".data))) = false from by decide]
  simp

theorem c10_darken_run : bscRun ((0 : ℚ), (0 : ℚ)) ("#434343".data)
    (fun c _ _ => some (decide (c ≠ "#010101".data))) false .darken bscFuel
    ⟨0, 1 / 255, "#000000".data, "#010101".data, none, none⟩ =
    ⟨0, 1 / 510, "#000000".data, "#010101".data, some ("#000000".data),
      some ("#010101".data)⟩ := by
  rw [bscRun_step _ _ _ _ _ _ _ (by norm_num [bscFuel]) (by decide),
    c10_darken_step]
  exact bscRun_of_cond_false _ _ _ _ _ _ _ (by decide)

theorem bsc_lighten_eval (h s l : ℚ) (fixed : HSL)
    (cf : List Char → List Char → Bool → Option Bool) (large : Bool)
    (hg : jsTruthy (cf (hslToHex ⟨h, s, 1⟩) (hslToHex fixed) large) = true) :
    binarySearchContrast ⟨h, s, l⟩ fixed .lighten cf large =
      some (hexToHsl (bscTracked .lighten (bscRun (h, s) (hslToHex fixed)
        cf large .lighten bscFuel
        ⟨l, 1, hslToHex ⟨h, s, l⟩, hslToHex ⟨h, s, 1⟩, none, none⟩))) := by
  have hunf : binarySearchContrast ⟨h, s, l⟩ fixed .lighten cf large =
      (if !jsTruthy (cf (hslToHex ⟨h, s, 1⟩) (hslToHex fixed) large) then none
       else some (hexToHsl (bscTracked .lighten (bscRun ((h : ℚ), (s : ℚ))
         (hslToHex fixed) cf large .lighten bscFuel
         ⟨l, 1, hslToHex ⟨h, s, l⟩, hslToHex ⟨h, s, 1⟩, none, none⟩)))) := rfl
  rw [hunf, hg]
  rfl

theorem bsc_darken_eval (h s l : ℚ) (fixed : HSL)
    (cf : List Char → List Char → Bool → Option Bool) (large : Bool)
    (hg : jsTruthy (cf (hslToHex ⟨h, s, 0⟩) (hslToHex fixed) large) = true) :
    binarySearchContrast ⟨h, s, l⟩ fixed .darken cf large =
      some (hexToHsl (bscTracked .darken (bscRun (h, s) (hslToHex fixed)
        cf large .darken bscFuel
        ⟨0, l, hslToHex ⟨h, s, 0⟩, hslToHex ⟨h, s, l⟩, none, none⟩))) := by
  have hunf : binarySearchContrast ⟨h, s, l⟩ fixed .darken cf large =
      (if !jsTruthy (cf (hslToHex ⟨h, s, 0⟩) (hslToHex fixed) large) then none
       else some (hexToHsl (bscTracked .darken (bscRun ((h : ℚ), (s : ℚ))
         (hslToHex fixed) cf large .darken bscFuel
         ⟨0, l, hslToHex ⟨h, s, 0⟩, hslToHex ⟨h, s, l⟩, none, none⟩)))) := rfl
  rw [hunf, hg]
  rfl

theorem c10_bsc_darken :
    binarySearchContrast ⟨0, 0, 1 / 255⟩ ⟨0, 0, 67 / 255⟩ .darken
      (fun c _ _ => some (decide (c ≠ "#010101".data))) false =
      some ⟨0, 0, 0⟩ := by
  rw [bsc_darken_eval 0 0 (1 / 255) ⟨0, 0, 67 / 255⟩ _ false (by
    show jsTruthy (some (decide (hslToHex ⟨(0 : ℚ), 0, 0⟩ ≠
      "#010101".data))) = true
    rw [hslToHex_c6black]
    decide)]
  rw [hslToHex_c6B, hslToHex_c6black, hslToHex_c6A, c10_darken_run,
    bscTracked_darken]
  show some (hexToHsl ("#000000".data)) = some (⟨0, 0, 0⟩ : HSL)
  rw [hexToHsl_c6black]

theorem c10_bsc_lighten :
    binarySearchContrast ⟨0, 0, 1 / 255⟩ ⟨0, 0, 67 / 255⟩ .lighten
      (fun c _ _ => some (decide (c ≠ "#010101".data))) false =
      some ⟨0, 0, 2 / 255⟩ := by
  rw [bsc_lighten_eval 0 0 (1 / 255) ⟨0, 0, 67 / 255⟩ _ false (by
    show jsTruthy (some (decide (hslToHex ⟨(0 : ℚ), 0, 1⟩ ≠
      "#010101".data))) = true
    rw [hslToHex_c6white]
    decide)]
  rw [hslToHex_c6B, hslToHex_c6A, hslToHex_c6white, c10_lighten_run,
    bscTracked_lighten]
  show some (hexToHsl ("#020202".data)) = some (⟨0, 0, 2 / 255⟩ : HSL)
  rw [hexToHsl_g2]

/-- Witness for C10 at a concrete input: both directed searches succeed at
exactly equal lightness distance `1/255` from the original `"#010101"`, and
the suggestion returns the lighter variant. -/
theorem claim10_witness :
    jsTruthy ((fun c _ _ => some (decide (c ≠ "#010101".data)))
        ("#010101".data) ("#434343".data) false) = false ∧
    binarySearchContrast (hexToHsl ("#010101".data))
        (hexToHsl ("#434343".data)) .darken
        (fun c _ _ => some (decide (c ≠ "#010101".data))) false =
      some ⟨0, 0, 0⟩ ∧
    binarySearchContrast (hexToHsl ("#010101".data))
        (hexToHsl ("#434343".data)) .lighten
        (fun c _ _ => some (decide (c ≠ "#010101".data))) false =
      some ⟨0, 0, 2 / 255⟩ ∧
    |(hexToHsl ("#010101".data)).l - (⟨0, 0, 0⟩ : HSL).l| =
      |(hexToHsl ("#010101".data)).l - (⟨0, 0, 2 / 255⟩ : HSL).l| ∧
    suggestColorVariant ("#010101".data) ("#434343".data)
        (fun c _ _ => some (decide (c ≠ "#010101".data))) false =
      some (hslToHex ⟨0, 0, 2 / 255⟩) := by
  have hcf : jsTruthy ((fun c _ _ => some (decide (c ≠ "#010101".data)))
      ("#010101".data) ("#434343".data) false) = false := by decide
  have hd : binarySearchContrast (hexToHsl ("#010101".data))
      (hexToHsl ("#434343".data)) .darken
      (fun c _ _ => some (decide (c ≠ "#010101".data))) false =
      some ⟨0, 0, 0⟩ := by
    rw [hexToHsl_c6A, hexToHsl_c6B]
    exact c10_bsc_darken
  have hl : binarySearchContrast (hexToHsl ("#010101".data))
      (hexToHsl ("#434343".data)) .lighten
      (fun c _ _ => some (decide (c ≠ "#010101".data))) false =
      some ⟨0, 0, 2 / 255⟩ := by
    rw [hexToHsl_c6A, hexToHsl_c6B]
    exact c10_bsc_lighten
  have heq : |(hexToHsl ("#010101".data)).l - (⟨0, 0, 0⟩ : HSL).l| =
      |(hexToHsl ("#010101".data)).l - (⟨0, 0, 2 / 255⟩ : HSL).l| := by
    rw [hexToHsl_c6A]
    show |(1 : ℚ) / 255 - 0| = |(1 : ℚ) / 255 - 2 / 255|
    rw [abs_of_nonneg (by norm_num), abs_of_nonpos (by norm_num)]
    norm_num
  exact ⟨hcf, hd, hl, heq,
    claim10_tie_prefers_lighter _ false _ _ _ _ hcf hd hl heq⟩
